import Mathlib

/-!
gl-bench: the texture upload benchmark `bench_tex_upload.cpp`.

Shallow embedding of the benchmark's pure helpers (`fill_bgra`,
`make_dirty_rects`), of `run_benchmark` over an abstract GL interface, and of
the argument loop and reporting loop of `main`.

Conventions:
* `unsigned` values are naturals below `2 ^ 32`; 32-bit unsigned arithmetic is
  written with an explicit `% 2 ^ 32`, `size_t` arithmetic with `% 2 ^ 64`.
* `int` values are integers; the conversion `int(u)` of an unsigned value is
  `toInt32`.
* `std::vector<T>` is a `List`.
-/

namespace GlBench

/-! ## Machine integers -/

/-- Number of values of a 32-bit `unsigned`. -/
def U32 : Nat := 2 ^ 32

/-- Number of values of a 64-bit `size_t`. -/
def U64 : Nat := 2 ^ 64

/-- The conversion `int(u)` of an unsigned 32-bit value: values from `2 ^ 31`
upwards wrap around to the negative range. -/
def toInt32 (u : Nat) : Int :=
  if u % U32 < 2 ^ 31 then ((u % U32 : Nat) : Int) else ((u % U32 : Nat) : Int) - (U32 : Int)

/-- A bounded `for (i = 0; i < n; ++i)` loop over a state. -/
def forUpTo {σ : Type} (n : Nat) (body : Nat → σ → σ) (s : σ) : σ :=
  match n with
  | 0 => s
  | k + 1 => body k (forUpTo k body s)

/-! ## `Rect` and `make_dirty_rects` -/

/-- The source's `struct Rect { int x, y, w, h; }`. -/
structure Rect where
  x : Int
  y : Int
  w : Int
  h : Int
deriving DecidableEq

/-- The source's `make_dirty_rects`: three rectangles of a quarter of the
texture's width and height each. -/
def make_dirty_rects (texW texH : Nat) : List Rect :=
  let rects : List Rect := []
  let rw := texW / 4
  let rh := texH / 4
  let rects := rects ++ [⟨toInt32 (texW / 8), toInt32 (texH / 8), toInt32 rw, toInt32 rh⟩]
  let rects := rects ++ [⟨toInt32 (texW / 2), toInt32 (texH / 3), toInt32 rw, toInt32 rh⟩]
  let rects := rects ++ [⟨toInt32 (texW / 3), toInt32 (texH / 2), toInt32 rw, toInt32 rh⟩]
  rects

/-- The built-in resolution list of `main`. -/
def defaults : List (Nat × Nat) :=
  [(128, 128), (256, 256), (320, 240), (400, 300), (512, 512), (640, 480), (800, 600), (1024, 512),
   (1024, 768), (1152, 864), (1280, 720), (1280, 800), (1366, 768), (1440, 900), (1600, 900),
   (1680, 1050), (1600, 1200), (1920, 1080), (1920, 1200), (2048, 1152), (2560, 1080),
   (2560, 1440), (3440, 1440), (3840, 2160)]

/-! ## `fill_bgra` -/

/-- `std::vector<uint32_t>::resize(n)`: the first `n` elements are kept and the
vector is padded with value-initialised (zero) elements up to length `n`. -/
def resize (v : List Nat) (n : Nat) : List Nat :=
  v.take n ++ List.replicate (n - v.length) 0

/-- The packed pixel computed in the body of `fill_bgra`'s inner loop, with the
32-bit wrap-around of the unsigned products and sums made explicit. -/
def packed (x y : Nat) : Nat :=
  let b := (((x * 13 % U32 + y * 7 % U32) % U32) &&& 0xFF) % 256
  let g := (((x * 3 % U32 + y * 11 % U32) % U32) &&& 0xFF) % 256
  let r := (((x * 17 % U32 + y * 5 % U32) % U32) &&& 0xFF) % 256
  let a := 0xFF
  ((a <<< 24) % U32) ||| ((r <<< 16) % U32) ||| ((g <<< 8) % U32) ||| b

/-- The index `size_t(y) * width + x` of the inner loop's store. -/
def pixelIndex (width x y : Nat) : Nat :=
  ((y * width) % U64 + x) % U64

/-- The source's `fill_bgra`: `pixels` is the vector passed by reference, the
result is its contents on return. -/
def fill_bgra (width height : Nat) (pixels : List Nat) : List Nat :=
  let pixels := resize pixels ((width * height) % U64)
  forUpTo height (fun y pixels =>
    forUpTo width (fun x pixels =>
      pixels.set (pixelIndex width x y) (packed x y)) pixels) pixels

/-- Blue channel (bits 0-7) of a packed pixel. -/
def blue (p : Nat) : Nat := p % 256
/-- Green channel (bits 8-15) of a packed pixel. -/
def green (p : Nat) : Nat := (p / 2 ^ 8) % 256
/-- Red channel (bits 16-23) of a packed pixel. -/
def red (p : Nat) : Nat := (p / 2 ^ 16) % 256
/-- Alpha channel (bits 24-31) of a packed pixel. -/
def alpha (p : Nat) : Nat := (p / 2 ^ 24) % 256

/-! ## Doubles -/

/-- A `double`, idealised: a finite value is an exact rational (no rounding, no
overflow), and the IEEE 754 special values, which is what a division by zero
produces, are kept apart. The two signed zeros are identified (`fin 0`). -/
inductive Dbl where
  | fin (q : ℚ)
  | pinf
  | ninf
  | nan
deriving DecidableEq

namespace Dbl

/-- Conversion of an unsigned value to `double`. -/
def ofNat (n : Nat) : Dbl := fin (n : ℚ)

/-- Conversion of an `int` to `double`. -/
def ofInt (i : Int) : Dbl := fin (i : ℚ)

/-- Unary minus. -/
def neg : Dbl → Dbl
  | fin a => fin (-a)
  | pinf => ninf
  | ninf => pinf
  | nan => nan

/-- IEEE 754 addition on the idealised values. -/
def add : Dbl → Dbl → Dbl
  | fin a, fin b => fin (a + b)
  | fin _, pinf => pinf
  | fin _, ninf => ninf
  | pinf, fin _ => pinf
  | pinf, pinf => pinf
  | pinf, ninf => nan
  | ninf, fin _ => ninf
  | ninf, ninf => ninf
  | ninf, pinf => nan
  | nan, _ => nan
  | _, nan => nan

/-- IEEE 754 subtraction. -/
def sub (a b : Dbl) : Dbl := add a (neg b)

/-- An infinity times a finite factor `b`: the sign follows `b`, and `0 * inf` is NaN. -/
def infTimes (positive : Bool) (b : ℚ) : Dbl :=
  if 0 < b then (if positive then pinf else ninf)
  else if b < 0 then (if positive then ninf else pinf)
  else nan

/-- IEEE 754 multiplication on the idealised values. -/
def mul : Dbl → Dbl → Dbl
  | fin a, fin b => fin (a * b)
  | fin a, pinf => infTimes true a
  | fin a, ninf => infTimes false a
  | pinf, fin b => infTimes true b
  | ninf, fin b => infTimes false b
  | pinf, pinf => pinf
  | pinf, ninf => ninf
  | ninf, pinf => ninf
  | ninf, ninf => pinf
  | nan, _ => nan
  | _, nan => nan

/-- IEEE 754 division on the idealised values: a nonzero finite value divided by
zero is an infinity, `0 / 0` and `inf / inf` are NaN, a finite value divided by
an infinity is zero. -/
def div : Dbl → Dbl → Dbl
  | fin a, fin b =>
    if b = 0 then (if 0 < a then pinf else if a < 0 then ninf else nan) else fin (a / b)
  | fin _, pinf => fin 0
  | fin _, ninf => fin 0
  | pinf, fin b => if b < 0 then ninf else pinf
  | ninf, fin b => if b < 0 then pinf else ninf
  | pinf, pinf => nan
  | pinf, ninf => nan
  | ninf, pinf => nan
  | ninf, ninf => nan
  | nan, _ => nan
  | _, nan => nan

/-- The comparison `a > b`; every comparison with NaN is false. -/
def gt : Dbl → Dbl → Bool
  | fin a, fin b => decide (b < a)
  | fin _, pinf => false
  | fin _, ninf => true
  | pinf, fin _ => true
  | pinf, pinf => false
  | pinf, ninf => true
  | ninf, _ => false
  | nan, _ => false
  | _, nan => false

end Dbl

/-! ## The GL interface, the clock and the process state -/

/-- The symbolic GL enumerants the benchmark passes as parameters. -/
inductive GLName where
  | TEXTURE_MIN_FILTER | TEXTURE_MAG_FILTER | TEXTURE_WRAP_S | TEXTURE_WRAP_T
  | LINEAR | CLAMP_TO_EDGE
  | UNPACK_ALIGNMENT | UNPACK_ROW_LENGTH | UNPACK_SKIP_PIXELS | UNPACK_SKIP_ROWS
deriving DecidableEq

/-- One call into the GL, with the arguments that vary. -/
inductive GLCall where
  | glGenTextures
  | glBindTexture (tex : Nat)
  | glTexParameteri (pname param : GLName)
  | glPixelStorei (pname : GLName) (param : Int)
  | glTexImage2D (width height : Int) (pixels : List Nat)
  | glTexSubImage2D (xoffset yoffset width height : Int) (pixels : List Nat)
  | glGetError
  | glFenceSync
  | glFlush
  | glClientWaitSync
  | glDeleteSync
  | glDeleteTextures (tex : Nat)
deriving DecidableEq

/-- The value `GL_NO_ERROR` of the GL headers. -/
def GL_NO_ERROR : Nat := 0

/-- The value `GL_TIMEOUT_EXPIRED` of the GL headers. -/
def GL_TIMEOUT_EXPIRED : Nat := 0x911B

/-- What the outside world answers: the GL's error query and fence wait and the
clock return arbitrary outcomes, indexed by the number of earlier calls. -/
structure World where
  /-- The result of the `k`-th call of `glGetError`. -/
  glGetError : Nat → Nat
  /-- The result of the `k`-th call of `glClientWaitSync`. -/
  glClientWaitSync : Nat → Nat
  /-- The texture name the `k`-th call of `glGenTextures` stores. -/
  glGenTextures : Nat → Nat
  /-- The `k`-th reading of the clock, in milliseconds. -/
  clock : Nat → ℚ

/-- A message on the error stream. -/
inductive ErrMsg where
  /-- The line `GL error 0x%X at %s`. -/
  | glError (e : Nat) (place : String)
  /-- The line `GPU sync timeout`. -/
  | syncTimeout
  /-- The line `Unrecognized argument '%s' (expected iterations or WxH)`. -/
  | unrecognized (arg : List Char)
deriving DecidableEq

/-- A line of the report on standard output, with the values it formats. -/
inductive Line where
  | iterations (n : Int)
  | resolutionCount (n : Nat)
  | header
  | row (w h : Nat) (fullAvg subAvg dirtyPercent speedup megaPixelsPerSec : Dbl)
  | aggregate (sampleCount : Nat)
  | sumFull (full_total : Dbl)
  | sumDirty (sub_total : Dbl)
  | overall (percent overallSpeedup : Dbl)
  | best (bestSpeedup : Dbl) (bestW bestH : Nat)
  | note
deriving DecidableEq

/-- The state of the process: how often each outside query has been made, the
GL calls issued so far, both output streams, and (as a ghost field, written by
`run_benchmark` itself on entry) the arguments of every `run_benchmark`
invocation. -/
structure Env where
  errCalls : Nat
  waitCalls : Nat
  genCalls : Nat
  clockCalls : Nat
  calls : List GLCall
  stderr : List ErrMsg
  stdout : List Line
  benchArgs : List (Nat × Nat × Int)

/-- The state at process start. -/
def Env.init : Env := ⟨0, 0, 0, 0, [], [], [], []⟩

/-- A function either returns a value or ends the process through `std::exit`
(or a `return` from `main`) with a status. -/
inductive Outcome (α : Type) where
  | ret (a : α) (s : Env)
  | exit (code : Nat) (s : Env)

/-- Issue a GL call that returns nothing. -/
def gl (c : GLCall) (s : Env) : Env :=
  { s with calls := s.calls ++ [c] }

/-- The source's `check_gl`. -/
def check_gl (wd : World) (place : String) (s : Env) : Outcome Unit :=
  let e := wd.glGetError s.errCalls
  let s := { gl .glGetError s with errCalls := s.errCalls + 1 }
  if e ≠ GL_NO_ERROR then
    .exit 1 { s with stderr := s.stderr ++ [.glError e place] }
  else
    .ret () s

/-- The source's `now_ms`. -/
def now_ms (wd : World) (s : Env) : Dbl × Env :=
  (Dbl.fin (wd.clock s.clockCalls), { s with clockCalls := s.clockCalls + 1 })

/-- The source's `sync_gpu`. -/
def sync_gpu (wd : World) (s : Env) : Env :=
  let s := gl .glFenceSync s
  let s := gl .glFlush s
  let res := wd.glClientWaitSync s.waitCalls
  let s := { gl .glClientWaitSync s with waitCalls := s.waitCalls + 1 }
  let s := if res = GL_TIMEOUT_EXPIRED then { s with stderr := s.stderr ++ [.syncTimeout] } else s
  gl .glDeleteSync s

/-! ## `run_benchmark` -/

/-- The source's `struct BenchResult`. -/
structure BenchResult where
  w : Nat
  h : Nat
  full_total_ms : Dbl
  full_avg_ms : Dbl
  sub_total_ms : Dbl
  sub_avg_ms : Dbl
deriving DecidableEq

/-- The body of the full-replace loop of `run_benchmark`. -/
def fullUpload (tex texW texH : Nat) (pixels : List Nat) (s : Env) : Env :=
  let s := gl (.glBindTexture tex) s
  let s := gl (.glPixelStorei .UNPACK_ROW_LENGTH (toInt32 texW)) s
  let s := gl (.glPixelStorei .UNPACK_SKIP_PIXELS 0) s
  let s := gl (.glPixelStorei .UNPACK_SKIP_ROWS 0) s
  gl (.glTexImage2D (toInt32 texW) (toInt32 texH) pixels) s

/-- The body of the dirty sub-update loop of `run_benchmark`. -/
def subUpload (tex texW : Nat) (dirtyRects : List Rect) (pixels : List Nat) (s : Env) : Env :=
  let s := gl (.glBindTexture tex) s
  let s := gl (.glPixelStorei .UNPACK_ROW_LENGTH (toInt32 texW)) s
  let s := dirtyRects.foldl (fun s r =>
    let s := gl (.glPixelStorei .UNPACK_SKIP_PIXELS r.x) s
    let s := gl (.glPixelStorei .UNPACK_SKIP_ROWS r.y) s
    gl (.glTexSubImage2D r.x r.y r.w r.h pixels) s) s
  let s := gl (.glPixelStorei .UNPACK_SKIP_PIXELS 0) s
  gl (.glPixelStorei .UNPACK_SKIP_ROWS 0) s

/-- The source's `run_benchmark`. A loop `for (int i = 0; i < iterations; ++i)`
runs `iterations.toNat` times (not at all for `iterations ≤ 0`). On entry the
arguments received are recorded in the ghost field `benchArgs`. -/
def run_benchmark (wd : World) (texW texH : Nat) (iterations : Int) (s : Env) :
    Outcome BenchResult :=
  let s := { s with benchArgs := s.benchArgs ++ [(texW, texH, iterations)] }
  let pixels := fill_bgra texW texH []
  let dirtyRects := make_dirty_rects texW texH
  let tex := wd.glGenTextures s.genCalls
  let s := { gl .glGenTextures s with genCalls := s.genCalls + 1 }
  let s := gl (.glBindTexture tex) s
  let s := gl (.glTexParameteri .TEXTURE_MIN_FILTER .LINEAR) s
  let s := gl (.glTexParameteri .TEXTURE_MAG_FILTER .LINEAR) s
  let s := gl (.glTexParameteri .TEXTURE_WRAP_S .CLAMP_TO_EDGE) s
  let s := gl (.glTexParameteri .TEXTURE_WRAP_T .CLAMP_TO_EDGE) s
  let s := gl (.glPixelStorei .UNPACK_ALIGNMENT 4) s
  let s := gl (.glPixelStorei .UNPACK_ROW_LENGTH (toInt32 texW)) s
  let s := gl (.glPixelStorei .UNPACK_SKIP_PIXELS 0) s
  let s := gl (.glPixelStorei .UNPACK_SKIP_ROWS 0) s
  let s := gl (.glTexImage2D (toInt32 texW) (toInt32 texH) pixels) s
  match check_gl wd "initial glTexImage2D" s with
  | .exit code s => .exit code s
  | .ret () s =>
  let s := sync_gpu wd s
  let (t0, s) := now_ms wd s
  let s := forUpTo iterations.toNat (fun _ s => fullUpload tex texW texH pixels s) s
  match check_gl wd "loop glTexImage2D" s with
  | .exit code s => .exit code s
  | .ret () s =>
  let s := sync_gpu wd s
  let (t1, s) := now_ms wd s
  let full_ms := Dbl.sub t1 t0
  let (t0, s) := now_ms wd s
  let s := forUpTo iterations.toNat (fun _ s => subUpload tex texW dirtyRects pixels s) s
  match check_gl wd "loop glTexSubImage2D" s with
  | .exit code s => .exit code s
  | .ret () s =>
  let s := sync_gpu wd s
  let (t1, s) := now_ms wd s
  let sub_ms := Dbl.sub t1 t0
  let s := gl (.glDeleteTextures tex) s
  let r : BenchResult :=
    ⟨texW, texH, full_ms, Dbl.div full_ms (Dbl.ofInt iterations),
      sub_ms, Dbl.div sub_ms (Dbl.ofInt iterations)⟩
  .ret r s

/-! ## `main`: the argument loop -/

/-- The decimal value of a string of digits. -/
def decimalValue (a : List Char) : Nat :=
  a.foldl (fun n c => 10 * n + (c.toNat - 48)) 0

/-- The C library's `atoi` on a string made of digits only, the only strings
`main` passes to it, as glibc computes it on a 64-bit platform,
`(int) strtol(a, NULL, 10)`: the decimal value (`0` for the empty string),
saturated at `LONG_MAX = 2 ^ 63 - 1` and then truncated to an `int`. It is the
decimal value itself below `2 ^ 31` and wraps around (possibly to a negative
count) from there on. -/
def atoi (a : List Char) : Int :=
  toInt32 (min (decimalValue a) (2 ^ 63 - 1))

/-- The scan over `a` that sets `allDigits` in `main`: every character up to the
terminating NUL passes `std::isdigit`. -/
def allDigits (a : List Char) : Bool :=
  a.all Char.isDigit

/-- The source's `parse_resolution`. The C library call
`sscanf(s, "%ux%u", &tw, &th)` is the parameter `sscanf`, which gives the
call's return value and the contents of `tw` and `th` after it. -/
def parse_resolution (sscanf : List Char → Int × Nat × Nat) (s : List Char) :
    Option (Nat × Nat) :=
  match sscanf s with
  | (n, tw, th) => if n = 2 ∧ tw > 0 ∧ th > 0 then some (tw, th) else none

/-- How the argument loop of `main` ends. -/
inductive Parsed where
  /-- Every argument was accepted. -/
  | ok (iterations : Int) (resolutions : List (Nat × Nat))
  /-- The argument was not recognised: `main` returns 1. -/
  | fail (arg : List Char)
deriving DecidableEq

/-- The argument loop of `main`, `for (int i = 1; i < argc; ++i)`, from index
`i` on; `args` holds `argv[i]`, `argv[i+1]`, ... -/
def main_args (sscanf : List Char → Int × Nat × Nat) :
    Nat → List (List Char) → Int → List (Nat × Nat) → Parsed
  | _, [], iterations, resolutions => .ok iterations resolutions
  | i, a :: rest, iterations, resolutions =>
    if i = 1 ∧ allDigits a = true then
      main_args sscanf (i + 1) rest (atoi a) resolutions
    else
      match parse_resolution sscanf a with
      | some (w, h) => main_args sscanf (i + 1) rest iterations (resolutions ++ [(w, h)])
      | none => .fail a

/-! ## `main`: the per-resolution metrics and the report -/

/-- The `speedup` of a table row, as `main` computes it. -/
def speedup (r : BenchResult) : Dbl :=
  if Dbl.gt r.full_avg_ms (Dbl.fin 0) = true then Dbl.div r.full_avg_ms r.sub_avg_ms
  else Dbl.fin 0

/-- The `dirtyPercent` of a table row, as `main` computes it. -/
def dirtyPercent (r : BenchResult) : Dbl :=
  if Dbl.gt r.full_avg_ms (Dbl.fin 0) = true then
    Dbl.mul (Dbl.div r.sub_avg_ms r.full_avg_ms) (Dbl.fin 100)
  else Dbl.fin 0

/-- The local `mpixPerSecFull` of `main` (computed on the 32-bit product
`r.w * r.h`, and never used). -/
def mpixPerSecFull (r : BenchResult) : Dbl :=
  Dbl.div (Dbl.ofNat ((r.w * r.h) % U32)) (Dbl.mul r.full_avg_ms (Dbl.fin 1000))

/-- The local `pixelsPerSec` of `main`; the product is taken on doubles. -/
def pixelsPerSec (r : BenchResult) : Dbl :=
  if Dbl.gt r.full_avg_ms (Dbl.fin 0) = true then
    Dbl.div (Dbl.mul (Dbl.mul (Dbl.ofNat r.w) (Dbl.ofNat r.h)) (Dbl.fin 1000)) r.full_avg_ms
  else Dbl.fin 0

/-- The `megaPixelsPerSec` of a table row (the `PixelsM/s` column). -/
def megaPixelsPerSec (r : BenchResult) : Dbl :=
  Dbl.div (pixelsPerSec r) (Dbl.fin 1000000)

/-- The table row `main` prints for a result. -/
def tableRow (r : BenchResult) : Line :=
  .row r.w r.h r.full_avg_ms r.sub_avg_ms (dirtyPercent r) (speedup r) (megaPixelsPerSec r)

/-- The loop-carried variables `bestSpeedup`, `bestW`, `bestH` of `main`. -/
structure Best where
  bestSpeedup : Dbl
  bestW : Nat
  bestH : Nat
deriving DecidableEq

/-- Their initial values. -/
def Best.init : Best := ⟨Dbl.fin 0, 0, 0⟩

/-- The update `if (speedup > bestSpeedup) { ... }` of the result loop. -/
def trackBest (b : Best) (r : BenchResult) : Best :=
  if Dbl.gt (speedup r) b.bestSpeedup = true then ⟨speedup r, r.w, r.h⟩ else b

/-- Write a line to standard output. -/
def print (l : Line) (s : Env) : Env :=
  { s with stdout := s.stdout ++ [l] }

/-- The result loop of `main`, `for (auto [w,h] : resolutions)`, carrying the
vector `all` and the best-speedup variables. -/
def main_sweep (wd : World) (iterations : Int) :
    List (Nat × Nat) → List BenchResult → Best → Env → Outcome (List BenchResult × Best)
  | [], all, best, s => .ret (all, best) s
  | (w, h) :: rest, all, best, s =>
    match run_benchmark wd w h iterations s with
    | .exit code s => .exit code s
    | .ret r s =>
      let best := trackBest best r
      let s := print (tableRow r) s
      main_sweep wd iterations rest (all ++ [r]) best s

/-- The sums `full_total`, `sub_total` and the count `sampleCount` of `main`. -/
structure Totals where
  full_total : Dbl
  sub_total : Dbl
  sampleCount : Nat
deriving DecidableEq

/-- The summing loop `for (const auto &r : all)` of `main`. -/
def totals (all : List BenchResult) : Totals :=
  all.foldl (fun t r =>
    ⟨Dbl.add t.full_total r.full_total_ms, Dbl.add t.sub_total r.sub_total_ms,
      t.sampleCount + 1⟩) ⟨Dbl.fin 0, Dbl.fin 0, 0⟩

/-- The line `Dirty total is ... of Full (overall speedup ...)`, when printed. -/
def overallLine (t : Totals) : List Line :=
  if Dbl.gt t.full_total (Dbl.fin 0) = true then
    let overallSpeedup := Dbl.div t.full_total t.sub_total
    let percent := Dbl.mul (Dbl.div t.sub_total t.full_total) (Dbl.fin 100)
    [.overall percent overallSpeedup]
  else []

/-- The line `Best per-resolution speedup: ...`, when printed. -/
def bestLine (b : Best) : List Line :=
  if Dbl.gt b.bestSpeedup (Dbl.fin 0) = true then [.best b.bestSpeedup b.bestW b.bestH] else []

/-- The lines `main` prints after the result loop. -/
def report (all : List BenchResult) (b : Best) : List Line :=
  let t := totals all
  [.aggregate t.sampleCount, .sumFull t.full_total, .sumDirty t.sub_total]
    ++ overallLine t ++ bestLine b ++ [.note]

/-- The source's `main` from the argument loop on (the creation of the GL
context comes before and is not modelled): the exit status and the final state
are returned. -/
def main (sscanf : List Char → Int × Nat × Nat) (wd : World) (args : List (List Char))
    (s : Env) : Nat × Env :=
  match main_args sscanf 1 args 100 [] with
  | .fail a => (1, { s with stderr := s.stderr ++ [.unrecognized a] })
  | .ok iterations resolutions =>
    let resolutions := if resolutions.isEmpty then resolutions ++ defaults else resolutions
    let s := print (.iterations iterations) s
    let s := print (.resolutionCount resolutions.length) s
    let s := print .header s
    match main_sweep wd iterations resolutions [] Best.init s with
    | .exit code s => (code, s)
    | .ret (all, best) s => (0, { s with stdout := s.stdout ++ report all best })

/-- The process state an outcome leaves behind. -/
def Outcome.env {α : Type} : Outcome α → Env
  | .ret _ s => s
  | .exit _ s => s

/-! ## Theorems -/

/-! ### `make_dirty_rects` -/

theorem toInt32_of_lt {u : Nat} (h : u < 2 ^ 31) : toInt32 u = (u : Int) := by
  have h1 : u % U32 = u := Nat.mod_eq_of_lt (by unfold U32; omega)
  rw [toInt32, h1, if_pos h]

theorem make_dirty_rects_eq (texW texH : Nat) (hw : texW < U32) (hh : texH < U32) :
    make_dirty_rects texW texH =
      [⟨((texW / 8 : Nat) : Int), ((texH / 8 : Nat) : Int), ((texW / 4 : Nat) : Int), ((texH / 4 : Nat) : Int)⟩,
       ⟨((texW / 2 : Nat) : Int), ((texH / 3 : Nat) : Int), ((texW / 4 : Nat) : Int), ((texH / 4 : Nat) : Int)⟩,
       ⟨((texW / 3 : Nat) : Int), ((texH / 2 : Nat) : Int), ((texW / 4 : Nat) : Int), ((texH / 4 : Nat) : Int)⟩] := by
  unfold U32 at hw hh
  simp only [make_dirty_rects, List.nil_append, List.cons_append]
  rw [toInt32_of_lt (u := texW / 8) (by omega), toInt32_of_lt (u := texH / 8) (by omega),
    toInt32_of_lt (u := texW / 4) (by omega), toInt32_of_lt (u := texH / 4) (by omega),
    toInt32_of_lt (u := texW / 2) (by omega), toInt32_of_lt (u := texH / 3) (by omega),
    toInt32_of_lt (u := texW / 3) (by omega), toInt32_of_lt (u := texH / 2) (by omega)]


/-! ### `fill_bgra` -/

theorem forUpTo_succ {σ : Type} (n : Nat) (body : Nat → σ → σ) (s : σ) :
    forUpTo (n + 1) body s = body n (forUpTo n body s) := rfl

theorem length_resize (v : List Nat) (n : Nat) : (resize v n).length = n := by
  simp only [resize, List.length_append, List.length_take, List.length_replicate]
  omega

/-- The wrap-around of the 32-bit products and sums is invisible in the low byte. -/
theorem low_byte_eq (a b : Nat) :
    (((a % U32 + b % U32) % U32) &&& 0xFF) % 256 = (a + b) % 256 := by
  have h : ((a % U32 + b % U32) % U32) &&& 0xFF = ((a % U32 + b % U32) % U32) % 2 ^ 8 :=
    Nat.and_pow_two_sub_one_eq_mod ((a % U32 + b % U32) % U32) 8
  rw [h]
  unfold U32
  omega

theorem packed_eq (x y : Nat) :
    packed x y =
      (255 <<< 24) ||| (((17 * x + 5 * y) % 256) <<< 16) ||| (((3 * x + 11 * y) % 256) <<< 8)
        ||| ((13 * x + 7 * y) % 256) := by
  have hr : ((((x * 17 % U32 + y * 5 % U32) % U32) &&& 0xFF) % 256) = (17 * x + 5 * y) % 256 := by
    rw [low_byte_eq]; congr 1; ring
  have hg : ((((x * 3 % U32 + y * 11 % U32) % U32) &&& 0xFF) % 256) = (3 * x + 11 * y) % 256 := by
    rw [low_byte_eq]; congr 1; ring
  have hb : ((((x * 13 % U32 + y * 7 % U32) % U32) &&& 0xFF) % 256) = (13 * x + 7 * y) % 256 := by
    rw [low_byte_eq]; congr 1; ring
  simp only [packed, hr, hg, hb]
  have h1 : ((17 * x + 5 * y) % 256) <<< 16 % U32 = ((17 * x + 5 * y) % 256) <<< 16 := by
    apply Nat.mod_eq_of_lt
    rw [Nat.shiftLeft_eq]; unfold U32; omega
  have h2 : ((3 * x + 11 * y) % 256) <<< 8 % U32 = ((3 * x + 11 * y) % 256) <<< 8 := by
    apply Nat.mod_eq_of_lt
    rw [Nat.shiftLeft_eq]; unfold U32; omega
  rw [h1, h2]
  rfl

theorem pixelIndex_eq {width x y : Nat} (hw : width < U32) (hx : x < U32) (hy : y < U32) :
    pixelIndex width x y = y * width + x := by
  have h2 : y * width ≤ (U32 - 1) * (U32 - 1) :=
    Nat.mul_le_mul (Nat.le_sub_one_of_lt hy) (Nat.le_sub_one_of_lt hw)
  unfold U32 at *
  unfold pixelIndex U64
  norm_num at *
  omega

/-- The inner loop of `fill_bgra` for row `y`, run for its first `n` columns. -/
theorem rowLoop_length (width y n : Nat) (s : List Nat) :
    (forUpTo n (fun x pixels => pixels.set (pixelIndex width x y) (packed x y)) s).length
      = s.length := by
  induction n with
  | zero => rfl
  | succ k ih => rw [forUpTo_succ, List.length_set, ih]

theorem rowLoop_get {width y : Nat} (hw : width < U32) (hy : y < U32) (n : Nat)
    (hn : n ≤ width) (s : List Nat) (i : Nat) :
    (forUpTo n (fun x pixels => pixels.set (pixelIndex width x y) (packed x y)) s)[i]?
      = if y * width ≤ i ∧ i < y * width + n ∧ i < s.length
          then some (packed (i - y * width) y) else s[i]? := by
  induction n with
  | zero =>
    rw [if_neg (by omega)]
    rfl
  | succ k ih =>
    have hk : k < U32 := by omega
    rw [forUpTo_succ, List.getElem?_set, rowLoop_length, ih (by omega), pixelIndex_eq hw hk hy]
    by_cases h1 : y * width + k = i
    · subst h1
      by_cases h2 : y * width + k < s.length
      · simp [h2]
      · have h3 : s[y * width + k]? = none := List.getElem?_eq_none (by omega)
        simp [h2, h3]
    · rw [if_neg h1]
      by_cases h2 : y * width ≤ i ∧ i < y * width + k ∧ i < s.length
      · rw [if_pos h2, if_pos (by omega)]
      · rw [if_neg h2, if_neg (by omega)]

theorem fillLoop_length (width m : Nat) (s : List Nat) :
    (forUpTo m (fun y pixels =>
      forUpTo width (fun x pixels => pixels.set (pixelIndex width x y) (packed x y)) pixels)
      s).length = s.length := by
  induction m with
  | zero => rfl
  | succ k ih => rw [forUpTo_succ, rowLoop_length, ih]

theorem fillLoop_get {width : Nat} (hw : width < U32) (m : Nat) (hm : m ≤ U32)
    (s : List Nat) (i : Nat) :
    (forUpTo m (fun y pixels =>
      forUpTo width (fun x pixels => pixels.set (pixelIndex width x y) (packed x y)) pixels)
      s)[i]?
      = if i < m * width ∧ i < s.length then some (packed (i % width) (i / width))
          else s[i]? := by
  induction m with
  | zero => simp [forUpTo]
  | succ k ih =>
    rw [forUpTo_succ, rowLoop_get hw (by omega) width (le_refl _), fillLoop_length, ih (by omega)]
    have hexp : (k + 1) * width = k * width + width := by ring
    by_cases h1 : k * width ≤ i ∧ i < k * width + width ∧ i < s.length
    · rw [if_pos h1, if_pos (by omega)]
      have hpos : 0 < width := by omega
      have hdiv : i / width = k := by
        apply Nat.div_eq_of_lt_le
        · exact h1.1
        · rw [Nat.succ_mul]; exact h1.2.1
      have hmod : i % width = i - k * width := by
        have := Nat.div_add_mod i width
        rw [hdiv, Nat.mul_comm] at this
        omega
      rw [hdiv, hmod]
    · rw [if_neg h1]
      by_cases h2 : i < k * width ∧ i < s.length
      · rw [if_pos h2, if_pos (by omega)]
      · rw [if_neg h2, if_neg (by omega)]

/-- The buffer `fill_bgra` leaves behind, read at any index. -/
theorem fill_bgra_get {width height : Nat} (hw : width < U32) (hh : height < U32)
    (pixels : List Nat) (i : Nat) :
    (fill_bgra width height pixels)[i]?
      = if i < width * height then some (packed (i % width) (i / width)) else none := by
  have hsz : (width * height) % U64 = width * height := by
    apply Nat.mod_eq_of_lt
    have h2 : width * height ≤ (U32 - 1) * (U32 - 1) :=
      Nat.mul_le_mul (Nat.le_sub_one_of_lt hw) (Nat.le_sub_one_of_lt hh)
    unfold U32 at h2
    unfold U64
    norm_num at *
    omega
  unfold fill_bgra
  simp only []
  rw [fillLoop_get hw height (by omega), hsz, length_resize, Nat.mul_comm height width]
  by_cases h : i < width * height
  · simp [h]
  · rw [if_neg (by omega), if_neg h]
    exact List.getElem?_eq_none (by rw [length_resize]; omega)

theorem fill_bgra_length {width height : Nat} (hw : width < U32) (hh : height < U32)
    (pixels : List Nat) : (fill_bgra width height pixels).length = width * height := by
  have hsz : (width * height) % U64 = width * height := by
    apply Nat.mod_eq_of_lt
    have h2 : width * height ≤ (U32 - 1) * (U32 - 1) :=
      Nat.mul_le_mul (Nat.le_sub_one_of_lt hw) (Nat.le_sub_one_of_lt hh)
    unfold U32 at h2
    unfold U64
    norm_num at *
    omega
  unfold fill_bgra
  simp only []
  rw [fillLoop_length, length_resize, hsz]

/-- A packed pixel is the sum of its four shifted channels. -/
theorem pack_channels (r g b : Nat) (hr : r < 256) (hg : g < 256) (hb : b < 256) :
    (255 <<< 24) ||| (r <<< 16) ||| (g <<< 8) ||| b
      = 255 * 2 ^ 24 + r * 2 ^ 16 + g * 2 ^ 8 + b := by
  have e1 : 2 ^ 24 * 255 + r * 2 ^ 16 = 2 ^ 24 * 255 ||| r * 2 ^ 16 :=
    Nat.mul_add_lt_is_or (by omega) 255
  have e2 : 2 ^ 16 * (255 * 2 ^ 8 + r) + g * 2 ^ 8 = 2 ^ 16 * (255 * 2 ^ 8 + r) ||| g * 2 ^ 8 :=
    Nat.mul_add_lt_is_or (by omega) _
  have e3 : 2 ^ 8 * (255 * 2 ^ 16 + r * 2 ^ 8 + g) + b = 2 ^ 8 * (255 * 2 ^ 16 + r * 2 ^ 8 + g) ||| b :=
    Nat.mul_add_lt_is_or hb _
  have a1 : 2 ^ 16 * (255 * 2 ^ 8 + r) = 2 ^ 24 * 255 + r * 2 ^ 16 := by ring
  have a2 : 2 ^ 8 * (255 * 2 ^ 16 + r * 2 ^ 8 + g) = 2 ^ 24 * 255 + r * 2 ^ 16 + g * 2 ^ 8 := by ring
  rw [Nat.shiftLeft_eq, Nat.shiftLeft_eq, Nat.shiftLeft_eq, Nat.mul_comm 255 (2 ^ 24)]
  rw [← e1, ← a1, ← e2, a1, ← a2, ← e3, a2]

theorem channels_of_sum (r g b : Nat) (hr : r < 256) (hg : g < 256) (hb : b < 256) :
    blue (255 * 2 ^ 24 + r * 2 ^ 16 + g * 2 ^ 8 + b) = b ∧
    green (255 * 2 ^ 24 + r * 2 ^ 16 + g * 2 ^ 8 + b) = g ∧
    red (255 * 2 ^ 24 + r * 2 ^ 16 + g * 2 ^ 8 + b) = r ∧
    alpha (255 * 2 ^ 24 + r * 2 ^ 16 + g * 2 ^ 8 + b) = 255 := by
  unfold blue green red alpha
  refine ⟨?_, ?_, ?_, ?_⟩ <;> omega

/-- C3: for `x < width` and `y < height` (unsigned 32-bit sizes), `fill_bgra`
leaves a buffer of length `width * height` whose element `y * width + x` is
`(255 << 24) | (r << 16) | (g << 8) | b` with `b = (13x + 7y) mod 256`,
`g = (3x + 11y) mod 256`, `r = (17x + 5y) mod 256` taken on the true integers;
its channels are `b`, `g`, `r` and alpha 255, whatever the vector held before. -/
theorem fill_bgra_pixel (width height x y : Nat) (pixels : List Nat)
    (hw : width < U32) (hh : height < U32) (hx : x < width) (hy : y < height) :
    (fill_bgra width height pixels).length = width * height ∧
    ∃ p, (fill_bgra width height pixels)[y * width + x]? = some p ∧
      p = ((255 <<< 24) ||| (((17 * x + 5 * y) % 256) <<< 16)
            ||| (((3 * x + 11 * y) % 256) <<< 8) ||| ((13 * x + 7 * y) % 256)) ∧
      blue p = (13 * x + 7 * y) % 256 ∧ green p = (3 * x + 11 * y) % 256 ∧
      red p = (17 * x + 5 * y) % 256 ∧ alpha p = 255 := by
  refine ⟨fill_bgra_length hw hh pixels, _, ?_, rfl, ?_⟩
  · rw [fill_bgra_get hw hh pixels]
    have hlt : y * width + x < width * height := by
      have h1 : y * width + width ≤ height * width := by
        rw [← Nat.succ_mul]; exact Nat.mul_le_mul_right _ hy
      rw [Nat.mul_comm width height]; omega
    rw [if_pos hlt]
    have hmod : (y * width + x) % width = x := by
      rw [Nat.add_comm, Nat.add_mul_mod_self_right, Nat.mod_eq_of_lt hx]
    have hdiv : (y * width + x) / width = y := by
      apply Nat.div_eq_of_lt_le
      · omega
      · rw [Nat.succ_mul]; omega
    rw [hmod, hdiv, packed_eq]
  · rw [pack_channels _ _ _ (Nat.mod_lt _ (by norm_num)) (Nat.mod_lt _ (by norm_num))
      (Nat.mod_lt _ (by norm_num))]
    exact channels_of_sum _ _ _ (Nat.mod_lt _ (by norm_num)) (Nat.mod_lt _ (by norm_num))
      (Nat.mod_lt _ (by norm_num))

/-- Witness of C3: in a 128x128 buffer the pixel at `(1, 0)` has blue 13,
green 3, red 17 and alpha 255. -/
theorem fill_bgra_pixel_witness :
    (fill_bgra 128 128 []).length = 128 * 128 ∧
    ∃ p, (fill_bgra 128 128 [])[0 * 128 + 1]? = some p ∧
      p = ((255 <<< 24) ||| (17 <<< 16) ||| (3 <<< 8) ||| 13) ∧
      blue p = 13 ∧ green p = 3 ∧ red p = 17 ∧ alpha p = 255 :=
  fill_bgra_pixel 128 128 1 0 [] (by decide) (by decide) (by decide) (by decide)

/-- C4: `fill_bgra` is a function of `(width, height)` alone: whatever the
vector held before (contents and length), the buffer on return is the list of
the `width * height` packed pixels in row-major order, so two calls with the
same sizes return identical buffers. -/
theorem fill_bgra_deterministic (width height : Nat) (p q : List Nat)
    (hw : width < U32) (hh : height < U32) :
    fill_bgra width height p = fill_bgra width height q ∧
    fill_bgra width height p
      = (List.range (width * height)).map (fun i => packed (i % width) (i / width)) := by
  have key : ∀ v : List Nat, fill_bgra width height v
      = (List.range (width * height)).map (fun i => packed (i % width) (i / width)) := by
    intro v
    apply List.ext_getElem?
    intro i
    rw [fill_bgra_get hw hh v, List.getElem?_map]
    by_cases h : i < width * height
    · rw [if_pos h, List.getElem?_range h]; rfl
    · rw [if_neg h, List.getElem?_eq_none (by simpa using h)]; rfl
  exact ⟨(key p).trans (key q).symm, key p⟩

/-- Witness of C4: a 2x2 fill over an empty vector and over a longer, non-zero
vector. -/
theorem fill_bgra_deterministic_witness :
    fill_bgra 2 2 [] = fill_bgra 2 2 [7, 7, 7, 7, 7, 7] ∧
    fill_bgra 2 2 []
      = (List.range (2 * 2)).map (fun i => packed (i % 2) (i / 2)) :=
  fill_bgra_deterministic 2 2 [] [7, 7, 7, 7, 7, 7] (by decide) (by decide)

/-! ### Claims on `make_dirty_rects` -/

/-- C1: for unsigned 32-bit `width` and `height`, `make_dirty_rects` returns
exactly the three rectangles `(width/8, height/8, width/4, height/4)`,
`(width/2, height/3, width/4, height/4)`, `(width/3, height/2, width/4, height/4)`
in this order, with floor division; for 128x128 these are `(16,16,32,32)`,
`(64,42,32,32)`, `(42,64,32,32)`. -/
theorem make_dirty_rects_spec (width height : Nat) (hw : width < U32) (hh : height < U32) :
    make_dirty_rects width height =
      [⟨((width / 8 : Nat) : Int), ((height / 8 : Nat) : Int),
          ((width / 4 : Nat) : Int), ((height / 4 : Nat) : Int)⟩,
       ⟨((width / 2 : Nat) : Int), ((height / 3 : Nat) : Int),
          ((width / 4 : Nat) : Int), ((height / 4 : Nat) : Int)⟩,
       ⟨((width / 3 : Nat) : Int), ((height / 2 : Nat) : Int),
          ((width / 4 : Nat) : Int), ((height / 4 : Nat) : Int)⟩] ∧
    (make_dirty_rects width height).length = 3 ∧
    make_dirty_rects 128 128 = [⟨16, 16, 32, 32⟩, ⟨64, 42, 32, 32⟩, ⟨42, 64, 32, 32⟩] := by
  refine ⟨make_dirty_rects_eq width height hw hh, ?_, by decide⟩
  rw [make_dirty_rects_eq width height hw hh]
  rfl

/-- Witness of C1: the rectangles of a 1920x1080 texture. -/
theorem make_dirty_rects_spec_witness :
    make_dirty_rects 1920 1080 =
      [⟨240, 135, 480, 270⟩, ⟨960, 360, 480, 270⟩, ⟨640, 540, 480, 270⟩] ∧
    (make_dirty_rects 1920 1080).length = 3 ∧
    make_dirty_rects 128 128 = [⟨16, 16, 32, 32⟩, ⟨64, 42, 32, 32⟩, ⟨42, 64, 32, 32⟩] :=
  make_dirty_rects_spec 1920 1080 (by decide) (by decide)

/-- A rectangle lies inside a `width` x `height` texture. -/
theorem rect_inside_of_eq (width height : Nat) (hw : width < U32) (hh : height < U32)
    (r : Rect) (hr : r ∈ make_dirty_rects width height) :
    0 ≤ r.x ∧ 0 ≤ r.y ∧ r.x + r.w ≤ (width : Int) ∧ r.y + r.h ≤ (height : Int) := by
  rw [make_dirty_rects_eq width height hw hh] at hr
  simp only [List.mem_cons, List.mem_singleton, List.not_mem_nil, or_false] at hr
  rcases hr with h | h | h <;> subst h <;> simp only [] <;> omega

/-- C2: every rectangle `(x, y, w, h)` of `make_dirty_rects width height` has
`x ≥ 0`, `y ≥ 0`, `x + w ≤ width` and `y + h ≤ height` on the integers, for
every unsigned 32-bit `width` and `height` and so for each of the 24 built-in
resolutions; none of the unsigned-to-int casts changes a value. -/
theorem dirty_rects_inside (width height : Nat) (hw : width < U32) (hh : height < U32) :
    (∀ r ∈ make_dirty_rects width height,
      0 ≤ r.x ∧ 0 ≤ r.y ∧ r.x + r.w ≤ (width : Int) ∧ r.y + r.h ≤ (height : Int)) ∧
    (toInt32 (width / 8) = ((width / 8 : Nat) : Int) ∧
      toInt32 (width / 4) = ((width / 4 : Nat) : Int) ∧
      toInt32 (width / 3) = ((width / 3 : Nat) : Int) ∧
      toInt32 (width / 2) = ((width / 2 : Nat) : Int) ∧
      toInt32 (height / 8) = ((height / 8 : Nat) : Int) ∧
      toInt32 (height / 4) = ((height / 4 : Nat) : Int) ∧
      toInt32 (height / 3) = ((height / 3 : Nat) : Int) ∧
      toInt32 (height / 2) = ((height / 2 : Nat) : Int)) ∧
    defaults.length = 24 ∧
    (∀ d ∈ defaults, ∀ r ∈ make_dirty_rects d.1 d.2,
      0 ≤ r.x ∧ 0 ≤ r.y ∧ r.x + r.w ≤ (d.1 : Int) ∧ r.y + r.h ≤ (d.2 : Int)) := by
  refine ⟨rect_inside_of_eq width height hw hh, ?_, rfl, ?_⟩
  · unfold U32 at hw hh
    refine ⟨?_, ?_, ?_, ?_, ?_, ?_, ?_, ?_⟩ <;> exact toInt32_of_lt (by omega)
  · intro d hd
    have hb : d.1 < U32 ∧ d.2 < U32 := by
      revert d
      decide
    exact rect_inside_of_eq d.1 d.2 hb.1 hb.2

/-- Witness of C2: the largest built-in resolution, 3840x2160. -/
theorem dirty_rects_inside_witness :
    (∀ r ∈ make_dirty_rects 3840 2160,
      0 ≤ r.x ∧ 0 ≤ r.y ∧ r.x + r.w ≤ ((3840 : Nat) : Int) ∧ r.y + r.h ≤ ((2160 : Nat) : Int)) ∧
    (toInt32 (3840 / 8) = ((3840 / 8 : Nat) : Int) ∧
      toInt32 (3840 / 4) = ((3840 / 4 : Nat) : Int) ∧
      toInt32 (3840 / 3) = ((3840 / 3 : Nat) : Int) ∧
      toInt32 (3840 / 2) = ((3840 / 2 : Nat) : Int) ∧
      toInt32 (2160 / 8) = ((2160 / 8 : Nat) : Int) ∧
      toInt32 (2160 / 4) = ((2160 / 4 : Nat) : Int) ∧
      toInt32 (2160 / 3) = ((2160 / 3 : Nat) : Int) ∧
      toInt32 (2160 / 2) = ((2160 / 2 : Nat) : Int)) ∧
    defaults.length = 24 ∧
    (∀ d ∈ defaults, ∀ r ∈ make_dirty_rects d.1 d.2,
      0 ≤ r.x ∧ 0 ≤ r.y ∧ r.x + r.w ≤ (d.1 : Int) ∧ r.y + r.h ≤ (d.2 : Int)) :=
  dirty_rects_inside 3840 2160 (by decide) (by decide)

/-! ### The per-resolution metrics -/

theorem gt_fin_zero (f : ℚ) : Dbl.gt (Dbl.fin f) (Dbl.fin 0) = true ↔ 0 < f := by
  simp [Dbl.gt]

theorem div_fin_fin (a b : ℚ) (hb : b ≠ 0) : Dbl.div (Dbl.fin a) (Dbl.fin b) = Dbl.fin (a / b) := by
  simp [Dbl.div, hb]

/-- C5: for a result with finite `full_avg_ms = f > 0` and `sub_avg_ms = s > 0`,
the table row reports, in exact arithmetic, `dirtyPercent = s / f * 100`,
`speedup = f / s` and the throughput `w * h / (f * 1000)`; all three are
non-negative, and `f = 4`, `s = 1/2` give 12.5 and 8. -/
theorem row_metrics (r : BenchResult) (f s : ℚ)
    (hf : r.full_avg_ms = Dbl.fin f) (hs : r.sub_avg_ms = Dbl.fin s)
    (hf0 : 0 < f) (hs0 : 0 < s) :
    tableRow r = Line.row r.w r.h (Dbl.fin f) (Dbl.fin s) (Dbl.fin (s / f * 100))
      (Dbl.fin (f / s)) (Dbl.fin ((r.w : ℚ) * (r.h : ℚ) / (f * 1000))) ∧
    dirtyPercent r = Dbl.fin (s / f * 100) ∧
    speedup r = Dbl.fin (f / s) ∧
    megaPixelsPerSec r = Dbl.fin ((r.w : ℚ) * (r.h : ℚ) / (f * 1000)) ∧
    0 ≤ s / f * 100 ∧ 0 ≤ f / s ∧ 0 ≤ (r.w : ℚ) * (r.h : ℚ) / (f * 1000) ∧
    (f = 4 → s = 1 / 2 → dirtyPercent r = Dbl.fin (25 / 2) ∧ speedup r = Dbl.fin 8) := by
  have hgt : Dbl.gt (Dbl.fin f) (Dbl.fin 0) = true := (gt_fin_zero f).2 hf0
  have hfne : f ≠ 0 := ne_of_gt hf0
  have hsne : s ≠ 0 := ne_of_gt hs0
  have hd : dirtyPercent r = Dbl.fin (s / f * 100) := by
    rw [dirtyPercent, hf, hs, if_pos hgt, div_fin_fin _ _ hfne]
    rfl
  have hsp : speedup r = Dbl.fin (f / s) := by
    rw [speedup, hf, hs, if_pos hgt, div_fin_fin _ _ hsne]
  have hm : megaPixelsPerSec r = Dbl.fin ((r.w : ℚ) * (r.h : ℚ) / (f * 1000)) := by
    rw [megaPixelsPerSec, pixelsPerSec, hf, if_pos hgt]
    simp only [Dbl.ofNat, Dbl.mul]
    rw [div_fin_fin _ _ hfne, div_fin_fin _ _ (by norm_num)]
    congr 1
    field_simp
    ring
  refine ⟨?_, hd, hsp, hm, ?_, ?_, ?_, ?_⟩
  · rw [tableRow, hd, hsp, hm, hf, hs]
  · positivity
  · positivity
  · positivity
  · intro h4 h2
    rw [hd, hsp, h4, h2]
    norm_num

/-- Witness of C5: a 128x128 result with averages 4 ms and 0.5 ms. -/
theorem row_metrics_witness :
    tableRow ⟨128, 128, Dbl.fin 400, Dbl.fin 4, Dbl.fin 50, Dbl.fin (1 / 2)⟩
      = Line.row 128 128 (Dbl.fin 4) (Dbl.fin (1 / 2)) (Dbl.fin (25 / 2)) (Dbl.fin 8)
          (Dbl.fin (512 / 125)) := by
  have h := (row_metrics ⟨128, 128, Dbl.fin 400, Dbl.fin 4, Dbl.fin 50, Dbl.fin (1 / 2)⟩
    4 (1 / 2) rfl rfl (by norm_num) (by norm_num)).1
  rw [h]
  norm_num

/-! ### `run_benchmark` -/

theorem fullLoop_env (tex texW texH : Nat) (pixels : List Nat) (n : Nat) (s : Env) :
    forUpTo n (fun _ s => fullUpload tex texW texH pixels s) s
      = { s with calls := (forUpTo n (fun _ s => fullUpload tex texW texH pixels s) s).calls } := by
  induction n with
  | zero => rfl
  | succ k ih =>
    rw [forUpTo_succ]
    generalize forUpTo k (fun _ s => fullUpload tex texW texH pixels s) s = t at ih ⊢
    rw [ih]
    rfl

theorem rectLoop_env (pixels : List Nat) (rects : List Rect) (s : Env) :
    rects.foldl (fun s r =>
        gl (.glTexSubImage2D r.x r.y r.w r.h pixels)
          (gl (.glPixelStorei .UNPACK_SKIP_ROWS r.y) (gl (.glPixelStorei .UNPACK_SKIP_PIXELS r.x) s))) s
      = { s with calls := (rects.foldl (fun s r =>
        gl (.glTexSubImage2D r.x r.y r.w r.h pixels)
          (gl (.glPixelStorei .UNPACK_SKIP_ROWS r.y)
            (gl (.glPixelStorei .UNPACK_SKIP_PIXELS r.x) s))) s).calls } := by
  induction rects generalizing s with
  | nil => rfl
  | cons r rest ih =>
    rw [List.foldl_cons, ih]
    rfl

theorem subUpload_env (tex texW : Nat) (rects : List Rect) (pixels : List Nat) (s : Env) :
    subUpload tex texW rects pixels s
      = { s with calls := (subUpload tex texW rects pixels s).calls } := by
  unfold subUpload
  simp only []
  rw [rectLoop_env]
  rfl

theorem subLoop_env (tex texW : Nat) (rects : List Rect) (pixels : List Nat) (n : Nat) (s : Env) :
    forUpTo n (fun _ s => subUpload tex texW rects pixels s) s
      = { s with calls := (forUpTo n (fun _ s => subUpload tex texW rects pixels s) s).calls } := by
  induction n with
  | zero => rfl
  | succ k ih =>
    rw [forUpTo_succ]
    generalize forUpTo k (fun _ s => subUpload tex texW rects pixels s) s = t at ih ⊢
    rw [ih, subUpload_env]


theorem check_gl_ok (wd : World) (place : String) (s : Env)
    (h : wd.glGetError s.errCalls = GL_NO_ERROR) :
    check_gl wd place s = .ret () { gl .glGetError s with errCalls := s.errCalls + 1 } := by
  simp [check_gl, h]

theorem check_gl_err (wd : World) (place : String) (s : Env)
    (h : wd.glGetError s.errCalls ≠ GL_NO_ERROR) :
    check_gl wd place s = .exit 1
      { gl .glGetError s with
        errCalls := s.errCalls + 1
        stderr := s.stderr ++ [.glError (wd.glGetError s.errCalls) place] } := by
  simp [check_gl, h, gl]

/-- A `sync_gpu` call changes the call trace, counts one fence wait and writes
the timeout warning when the wait timed out; it changes nothing else. -/
theorem sync_gpu_env (wd : World) (s : Env) :
    sync_gpu wd s
      = { s with
          calls := (sync_gpu wd s).calls
          waitCalls := s.waitCalls + 1
          stderr := s.stderr ++
            (if wd.glClientWaitSync s.waitCalls = GL_TIMEOUT_EXPIRED then [ErrMsg.syncTimeout]
              else []) } := by
  unfold sync_gpu
  simp only [gl]
  split <;> simp

theorem sub_fin (a b : ℚ) : Dbl.sub (Dbl.fin a) (Dbl.fin b) = Dbl.fin (a - b) := by
  simp [Dbl.sub, Dbl.neg, Dbl.add, sub_eq_add_neg]

theorem now_ms_fst (wd : World) (s : Env) : (now_ms wd s).1 = Dbl.fin (wd.clock s.clockCalls) := rfl

theorem gl_errCalls (c : GLCall) (s : Env) : (gl c s).errCalls = s.errCalls := rfl

theorem gl_waitCalls (c : GLCall) (s : Env) : (gl c s).waitCalls = s.waitCalls := rfl

theorem gl_genCalls (c : GLCall) (s : Env) : (gl c s).genCalls = s.genCalls := rfl

theorem gl_clockCalls (c : GLCall) (s : Env) : (gl c s).clockCalls = s.clockCalls := rfl

theorem gl_stderr (c : GLCall) (s : Env) : (gl c s).stderr = s.stderr := rfl

theorem gl_stdout (c : GLCall) (s : Env) : (gl c s).stdout = s.stdout := rfl

theorem gl_benchArgs (c : GLCall) (s : Env) : (gl c s).benchArgs = s.benchArgs := rfl

theorem now_ms_errCalls (wd : World) (s : Env) : (now_ms wd s).2.errCalls = s.errCalls := rfl

theorem now_ms_waitCalls (wd : World) (s : Env) : (now_ms wd s).2.waitCalls = s.waitCalls := rfl

theorem now_ms_genCalls (wd : World) (s : Env) : (now_ms wd s).2.genCalls = s.genCalls := rfl

theorem now_ms_clockCalls (wd : World) (s : Env) : (now_ms wd s).2.clockCalls = s.clockCalls + 1 := rfl

theorem now_ms_stderr (wd : World) (s : Env) : (now_ms wd s).2.stderr = s.stderr := rfl

theorem now_ms_stdout (wd : World) (s : Env) : (now_ms wd s).2.stdout = s.stdout := rfl

theorem now_ms_benchArgs (wd : World) (s : Env) : (now_ms wd s).2.benchArgs = s.benchArgs := rfl

theorem sync_gpu_errCalls (wd : World) (s : Env) :
    (sync_gpu wd s).errCalls = s.errCalls := by
  rw [sync_gpu_env]

theorem sync_gpu_waitCalls (wd : World) (s : Env) :
    (sync_gpu wd s).waitCalls = s.waitCalls + 1 := by
  rw [sync_gpu_env]

theorem sync_gpu_genCalls (wd : World) (s : Env) :
    (sync_gpu wd s).genCalls = s.genCalls := by
  rw [sync_gpu_env]

theorem sync_gpu_clockCalls (wd : World) (s : Env) :
    (sync_gpu wd s).clockCalls = s.clockCalls := by
  rw [sync_gpu_env]

theorem sync_gpu_stderr (wd : World) (s : Env) :
    (sync_gpu wd s).stderr = s.stderr ++
      (if wd.glClientWaitSync s.waitCalls = GL_TIMEOUT_EXPIRED then [ErrMsg.syncTimeout] else []) := by
  rw [sync_gpu_env]

theorem sync_gpu_stdout (wd : World) (s : Env) :
    (sync_gpu wd s).stdout = s.stdout := by
  rw [sync_gpu_env]

theorem sync_gpu_benchArgs (wd : World) (s : Env) :
    (sync_gpu wd s).benchArgs = s.benchArgs := by
  rw [sync_gpu_env]

theorem fullLoop_errCalls (tex texW texH : Nat) (pixels : List Nat) (n : Nat) (s : Env) :
    (forUpTo n (fun _ s => fullUpload tex texW texH pixels s) s).errCalls = s.errCalls := by
  rw [fullLoop_env]

theorem fullLoop_waitCalls (tex texW texH : Nat) (pixels : List Nat) (n : Nat) (s : Env) :
    (forUpTo n (fun _ s => fullUpload tex texW texH pixels s) s).waitCalls = s.waitCalls := by
  rw [fullLoop_env]

theorem fullLoop_genCalls (tex texW texH : Nat) (pixels : List Nat) (n : Nat) (s : Env) :
    (forUpTo n (fun _ s => fullUpload tex texW texH pixels s) s).genCalls = s.genCalls := by
  rw [fullLoop_env]

theorem fullLoop_clockCalls (tex texW texH : Nat) (pixels : List Nat) (n : Nat) (s : Env) :
    (forUpTo n (fun _ s => fullUpload tex texW texH pixels s) s).clockCalls = s.clockCalls := by
  rw [fullLoop_env]

theorem fullLoop_stderr (tex texW texH : Nat) (pixels : List Nat) (n : Nat) (s : Env) :
    (forUpTo n (fun _ s => fullUpload tex texW texH pixels s) s).stderr = s.stderr := by
  rw [fullLoop_env]

theorem fullLoop_stdout (tex texW texH : Nat) (pixels : List Nat) (n : Nat) (s : Env) :
    (forUpTo n (fun _ s => fullUpload tex texW texH pixels s) s).stdout = s.stdout := by
  rw [fullLoop_env]

theorem fullLoop_benchArgs (tex texW texH : Nat) (pixels : List Nat) (n : Nat) (s : Env) :
    (forUpTo n (fun _ s => fullUpload tex texW texH pixels s) s).benchArgs = s.benchArgs := by
  rw [fullLoop_env]

theorem subLoop_errCalls (tex texW : Nat) (rects : List Rect) (pixels : List Nat) (n : Nat) (s : Env) :
    (forUpTo n (fun _ s => subUpload tex texW rects pixels s) s).errCalls = s.errCalls := by
  rw [subLoop_env]

theorem subLoop_waitCalls (tex texW : Nat) (rects : List Rect) (pixels : List Nat) (n : Nat) (s : Env) :
    (forUpTo n (fun _ s => subUpload tex texW rects pixels s) s).waitCalls = s.waitCalls := by
  rw [subLoop_env]

theorem subLoop_genCalls (tex texW : Nat) (rects : List Rect) (pixels : List Nat) (n : Nat) (s : Env) :
    (forUpTo n (fun _ s => subUpload tex texW rects pixels s) s).genCalls = s.genCalls := by
  rw [subLoop_env]

theorem subLoop_clockCalls (tex texW : Nat) (rects : List Rect) (pixels : List Nat) (n : Nat) (s : Env) :
    (forUpTo n (fun _ s => subUpload tex texW rects pixels s) s).clockCalls = s.clockCalls := by
  rw [subLoop_env]

theorem subLoop_stderr (tex texW : Nat) (rects : List Rect) (pixels : List Nat) (n : Nat) (s : Env) :
    (forUpTo n (fun _ s => subUpload tex texW rects pixels s) s).stderr = s.stderr := by
  rw [subLoop_env]

theorem subLoop_stdout (tex texW : Nat) (rects : List Rect) (pixels : List Nat) (n : Nat) (s : Env) :
    (forUpTo n (fun _ s => subUpload tex texW rects pixels s) s).stdout = s.stdout := by
  rw [subLoop_env]

theorem subLoop_benchArgs (tex texW : Nat) (rects : List Rect) (pixels : List Nat) (n : Nat) (s : Env) :
    (forUpTo n (fun _ s => subUpload tex texW rects pixels s) s).benchArgs = s.benchArgs := by
  rw [subLoop_env]

/-- With no GL error at its three checks, `run_benchmark` returns: the result and
what the run leaves in the process state. -/
theorem run_benchmark_ok (wd : World) (texW texH : Nat) (iterations : Int) (s : Env)
    (h0 : wd.glGetError s.errCalls = GL_NO_ERROR)
    (h1 : wd.glGetError (s.errCalls + 1) = GL_NO_ERROR)
    (h2 : wd.glGetError (s.errCalls + 2) = GL_NO_ERROR) :
    ∃ s', run_benchmark wd texW texH iterations s = .ret
      ⟨texW, texH, Dbl.fin (wd.clock (s.clockCalls + 1) - wd.clock s.clockCalls),
        Dbl.div (Dbl.fin (wd.clock (s.clockCalls + 1) - wd.clock s.clockCalls)) (Dbl.ofInt iterations),
        Dbl.fin (wd.clock (s.clockCalls + 3) - wd.clock (s.clockCalls + 2)),
        Dbl.div (Dbl.fin (wd.clock (s.clockCalls + 3) - wd.clock (s.clockCalls + 2))) (Dbl.ofInt iterations)⟩ s' ∧
      s'.stderr = s.stderr
        ++ (if wd.glClientWaitSync s.waitCalls = GL_TIMEOUT_EXPIRED then [ErrMsg.syncTimeout] else [])
        ++ (if wd.glClientWaitSync (s.waitCalls + 1) = GL_TIMEOUT_EXPIRED then [ErrMsg.syncTimeout] else [])
        ++ (if wd.glClientWaitSync (s.waitCalls + 2) = GL_TIMEOUT_EXPIRED then [ErrMsg.syncTimeout] else []) ∧
      s'.stdout = s.stdout ∧ s'.benchArgs = s.benchArgs ++ [(texW, texH, iterations)] ∧
      s'.errCalls = s.errCalls + 3 ∧ s'.waitCalls = s.waitCalls + 3 ∧
      s'.clockCalls = s.clockCalls + 4 ∧ s'.genCalls = s.genCalls + 1 := by
  unfold run_benchmark
  simp only []
  rw [check_gl_ok]
  case h => simpa only [gl_errCalls] using h0
  simp only []
  rw [check_gl_ok]
  case h =>
    simpa only [gl_errCalls, fullLoop_errCalls, now_ms_errCalls, sync_gpu_errCalls] using h1
  simp only []
  rw [check_gl_ok]
  case h =>
    simpa only [gl_errCalls, fullLoop_errCalls, subLoop_errCalls, now_ms_errCalls,
      sync_gpu_errCalls] using h2
  simp only []
  simp only [now_ms_fst, gl_clockCalls, fullLoop_clockCalls, subLoop_clockCalls,
    now_ms_clockCalls, sync_gpu_clockCalls, sub_fin]
  refine ⟨_, rfl, ?_, ?_, ?_, ?_, ?_, ?_, ?_⟩
  · simp only [gl_stderr, fullLoop_stderr, subLoop_stderr, now_ms_stderr, sync_gpu_stderr,
      gl_waitCalls, fullLoop_waitCalls, subLoop_waitCalls, now_ms_waitCalls, sync_gpu_waitCalls]
  · simp only [gl_stdout, fullLoop_stdout, subLoop_stdout, now_ms_stdout, sync_gpu_stdout]
  · simp only [gl_benchArgs, fullLoop_benchArgs, subLoop_benchArgs, now_ms_benchArgs, sync_gpu_benchArgs]
  · simp only [gl_errCalls, fullLoop_errCalls, subLoop_errCalls, now_ms_errCalls, sync_gpu_errCalls]
  · simp only [gl_waitCalls, fullLoop_waitCalls, subLoop_waitCalls, now_ms_waitCalls, sync_gpu_waitCalls]
  · simp only [gl_clockCalls, fullLoop_clockCalls, subLoop_clockCalls, now_ms_clockCalls, sync_gpu_clockCalls]
  · simp only [gl_genCalls, fullLoop_genCalls, subLoop_genCalls, now_ms_genCalls, sync_gpu_genCalls]

/-- A GL error at the first check ends the process with status 1. -/
theorem run_benchmark_err0 (wd : World) (texW texH : Nat) (iterations : Int) (s : Env)
    (h0 : wd.glGetError s.errCalls ≠ GL_NO_ERROR) :
    ∃ s', run_benchmark wd texW texH iterations s = .exit 1 s' ∧
      s'.stdout = s.stdout ∧ s'.benchArgs = s.benchArgs ++ [(texW, texH, iterations)] := by
  unfold run_benchmark
  simp only []
  rw [check_gl_err]
  case h => simpa only [gl_errCalls] using h0
  simp only []
  refine ⟨_, rfl, ?_, ?_⟩
  · simp only [gl_stdout]
  · simp only [gl_benchArgs]

/-- A GL error at the check after the full-replace loop ends the process with
status 1. -/
theorem run_benchmark_err1 (wd : World) (texW texH : Nat) (iterations : Int) (s : Env)
    (h0 : wd.glGetError s.errCalls = GL_NO_ERROR)
    (h1 : wd.glGetError (s.errCalls + 1) ≠ GL_NO_ERROR) :
    ∃ s', run_benchmark wd texW texH iterations s = .exit 1 s' ∧
      s'.stdout = s.stdout ∧ s'.benchArgs = s.benchArgs ++ [(texW, texH, iterations)] := by
  unfold run_benchmark
  simp only []
  rw [check_gl_ok]
  case h => simpa only [gl_errCalls] using h0
  simp only []
  rw [check_gl_err]
  case h =>
    simpa only [gl_errCalls, fullLoop_errCalls, now_ms_errCalls, sync_gpu_errCalls] using h1
  simp only []
  refine ⟨_, rfl, ?_, ?_⟩
  · simp only [gl_stdout, fullLoop_stdout, now_ms_stdout, sync_gpu_stdout]
  · simp only [gl_benchArgs, fullLoop_benchArgs, now_ms_benchArgs, sync_gpu_benchArgs]

/-- A GL error at the check after the dirty sub-update loop ends the process
with status 1. -/
theorem run_benchmark_err2 (wd : World) (texW texH : Nat) (iterations : Int) (s : Env)
    (h0 : wd.glGetError s.errCalls = GL_NO_ERROR)
    (h1 : wd.glGetError (s.errCalls + 1) = GL_NO_ERROR)
    (h2 : wd.glGetError (s.errCalls + 2) ≠ GL_NO_ERROR) :
    ∃ s', run_benchmark wd texW texH iterations s = .exit 1 s' ∧
      s'.stdout = s.stdout ∧ s'.benchArgs = s.benchArgs ++ [(texW, texH, iterations)] := by
  unfold run_benchmark
  simp only []
  rw [check_gl_ok]
  case h => simpa only [gl_errCalls] using h0
  simp only []
  rw [check_gl_ok]
  case h =>
    simpa only [gl_errCalls, fullLoop_errCalls, now_ms_errCalls, sync_gpu_errCalls] using h1
  simp only []
  rw [check_gl_err]
  case h =>
    simpa only [gl_errCalls, fullLoop_errCalls, subLoop_errCalls, now_ms_errCalls,
      sync_gpu_errCalls] using h2
  simp only []
  refine ⟨_, rfl, ?_, ?_⟩
  · simp only [gl_stdout, fullLoop_stdout, subLoop_stdout, now_ms_stdout, sync_gpu_stdout]
  · simp only [gl_benchArgs, fullLoop_benchArgs, subLoop_benchArgs, now_ms_benchArgs,
      sync_gpu_benchArgs]

/-- Any GL error at one of the three checks ends the process with status 1. -/
theorem run_benchmark_err (wd : World) (texW texH : Nat) (iterations : Int) (s : Env)
    (h : ¬ (wd.glGetError s.errCalls = GL_NO_ERROR ∧
      wd.glGetError (s.errCalls + 1) = GL_NO_ERROR ∧
      wd.glGetError (s.errCalls + 2) = GL_NO_ERROR)) :
    ∃ s', run_benchmark wd texW texH iterations s = .exit 1 s' ∧
      s'.stdout = s.stdout ∧ s'.benchArgs = s.benchArgs ++ [(texW, texH, iterations)] := by
  by_cases h0 : wd.glGetError s.errCalls = GL_NO_ERROR
  · by_cases h1 : wd.glGetError (s.errCalls + 1) = GL_NO_ERROR
    · by_cases h2 : wd.glGetError (s.errCalls + 2) = GL_NO_ERROR
      · exact absurd ⟨h0, h1, h2⟩ h
      · exact run_benchmark_err2 wd texW texH iterations s h0 h1 h2
    · exact run_benchmark_err1 wd texW texH iterations s h0 h1
  · exact run_benchmark_err0 wd texW texH iterations s h0

/-- C8: for every resolution and every positive iteration count,
`run_benchmark` returns when no GL error is seen, and every result it returns
carries the input width and height, the measured totals (differences of clock
readings), `full_avg_ms = full_total_ms / iterations` and
`sub_avg_ms = sub_total_ms / iterations`, so that in exact arithmetic
`full_avg_ms * iterations = full_total_ms` and
`sub_avg_ms * iterations = sub_total_ms`. -/
theorem run_benchmark_averages (wd : World) (texW texH : Nat) (iterations : Int) (s : Env)
    (hit : 0 < iterations) :
    ((wd.glGetError s.errCalls = GL_NO_ERROR ∧ wd.glGetError (s.errCalls + 1) = GL_NO_ERROR ∧
        wd.glGetError (s.errCalls + 2) = GL_NO_ERROR) →
      ∃ r s', run_benchmark wd texW texH iterations s = .ret r s') ∧
    ∀ r s', run_benchmark wd texW texH iterations s = .ret r s' →
      r.w = texW ∧ r.h = texH ∧
      r.full_total_ms = Dbl.fin (wd.clock (s.clockCalls + 1) - wd.clock s.clockCalls) ∧
      r.sub_total_ms = Dbl.fin (wd.clock (s.clockCalls + 3) - wd.clock (s.clockCalls + 2)) ∧
      r.full_avg_ms = Dbl.div r.full_total_ms (Dbl.ofInt iterations) ∧
      r.sub_avg_ms = Dbl.div r.sub_total_ms (Dbl.ofInt iterations) ∧
      r.full_avg_ms
        = Dbl.fin ((wd.clock (s.clockCalls + 1) - wd.clock s.clockCalls) / (iterations : ℚ)) ∧
      r.sub_avg_ms
        = Dbl.fin ((wd.clock (s.clockCalls + 3) - wd.clock (s.clockCalls + 2)) / (iterations : ℚ)) ∧
      Dbl.mul r.full_avg_ms (Dbl.ofInt iterations) = r.full_total_ms ∧
      Dbl.mul r.sub_avg_ms (Dbl.ofInt iterations) = r.sub_total_ms := by
  have hne : (iterations : ℚ) ≠ 0 := by
    have : (0 : ℚ) < (iterations : ℚ) := by exact_mod_cast hit
    exact ne_of_gt this
  constructor
  · rintro ⟨h0, h1, h2⟩
    obtain ⟨s', hs', _⟩ := run_benchmark_ok wd texW texH iterations s h0 h1 h2
    exact ⟨_, s', hs'⟩
  · intro r s' hr
    by_cases h : wd.glGetError s.errCalls = GL_NO_ERROR ∧
        wd.glGetError (s.errCalls + 1) = GL_NO_ERROR ∧
        wd.glGetError (s.errCalls + 2) = GL_NO_ERROR
    · obtain ⟨s'', hs'', _⟩ := run_benchmark_ok wd texW texH iterations s h.1 h.2.1 h.2.2
      rw [hs''] at hr
      injection hr with hr _
      subst hr
      refine ⟨rfl, rfl, rfl, rfl, rfl, rfl, ?_, ?_, ?_, ?_⟩
      · exact div_fin_fin _ _ hne
      · exact div_fin_fin _ _ hne
      · simp only [Dbl.ofInt]
        rw [div_fin_fin _ _ hne]
        simp only [Dbl.mul]
        rw [div_mul_cancel₀ _ hne]
      · simp only [Dbl.ofInt]
        rw [div_fin_fin _ _ hne]
        simp only [Dbl.mul]
        rw [div_mul_cancel₀ _ hne]
    · obtain ⟨s'', hs'', _⟩ := run_benchmark_err wd texW texH iterations s h
      rw [hs''] at hr
      cases hr

/-- Witness of C8: a 4x4 texture, 2 iterations, a GL that never reports an
error and a clock that advances by one millisecond per reading. -/
theorem run_benchmark_averages_witness :
    ∃ r s', run_benchmark ⟨fun _ => 0, fun _ => 0, fun _ => 1, fun k => (k : ℚ)⟩ 4 4 2 Env.init
      = .ret r s' :=
  (run_benchmark_averages ⟨fun _ => 0, fun _ => 0, fun _ => 1, fun k => (k : ℚ)⟩ 4 4 2 Env.init
    (by decide)).1 ⟨rfl, rfl, rfl⟩

/-- C10: with arbitrary outcomes of the error query and of the fence wait,
`run_benchmark` returns a result exactly when none of its three `check_gl`
calls sees a GL error; an error at any of them ends the process with status 1
and no result; and whatever the three fence waits return, the result is still
produced, each `GL_TIMEOUT_EXPIRED` only adding a warning to the error stream. -/
theorem run_benchmark_outcome (wd : World) (texW texH : Nat) (iterations : Int) (s : Env) :
    ((∃ r s', run_benchmark wd texW texH iterations s = .ret r s') ↔
      (wd.glGetError s.errCalls = GL_NO_ERROR ∧ wd.glGetError (s.errCalls + 1) = GL_NO_ERROR ∧
        wd.glGetError (s.errCalls + 2) = GL_NO_ERROR)) ∧
    (¬ (wd.glGetError s.errCalls = GL_NO_ERROR ∧ wd.glGetError (s.errCalls + 1) = GL_NO_ERROR ∧
        wd.glGetError (s.errCalls + 2) = GL_NO_ERROR) →
      ∃ s', run_benchmark wd texW texH iterations s = .exit 1 s') ∧
    ((wd.glGetError s.errCalls = GL_NO_ERROR ∧ wd.glGetError (s.errCalls + 1) = GL_NO_ERROR ∧
        wd.glGetError (s.errCalls + 2) = GL_NO_ERROR) →
      ∀ waits : Nat → Nat, ∃ r s',
        run_benchmark { wd with glClientWaitSync := waits } texW texH iterations s = .ret r s' ∧
        s'.stderr = s.stderr
          ++ (if waits s.waitCalls = GL_TIMEOUT_EXPIRED then [ErrMsg.syncTimeout] else [])
          ++ (if waits (s.waitCalls + 1) = GL_TIMEOUT_EXPIRED then [ErrMsg.syncTimeout] else [])
          ++ (if waits (s.waitCalls + 2) = GL_TIMEOUT_EXPIRED then [ErrMsg.syncTimeout]
                else [])) := by
  refine ⟨⟨?_, ?_⟩, ?_, ?_⟩
  · rintro ⟨r, s', hr⟩
    by_contra h
    obtain ⟨s'', hs'', _⟩ := run_benchmark_err wd texW texH iterations s h
    rw [hs''] at hr
    cases hr
  · rintro ⟨h0, h1, h2⟩
    obtain ⟨s', hs', _⟩ := run_benchmark_ok wd texW texH iterations s h0 h1 h2
    exact ⟨_, s', hs'⟩
  · intro h
    obtain ⟨s', hs', _⟩ := run_benchmark_err wd texW texH iterations s h
    exact ⟨s', hs'⟩
  · rintro ⟨h0, h1, h2⟩ waits
    obtain ⟨s', hs', herr, _⟩ :=
      run_benchmark_ok { wd with glClientWaitSync := waits } texW texH iterations s h0 h1 h2
    exact ⟨_, s', hs', herr⟩

/-- Witness of C10: every fence wait times out and no GL error is reported; the
result is produced and the error stream holds three warnings. -/
theorem run_benchmark_outcome_witness :
    ∃ r s', run_benchmark ⟨fun _ => 0, fun _ => GL_TIMEOUT_EXPIRED, fun _ => 1, fun k => (k : ℚ)⟩
        4 4 2 Env.init = .ret r s' ∧
      s'.stderr = [ErrMsg.syncTimeout, ErrMsg.syncTimeout, ErrMsg.syncTimeout] :=
  (run_benchmark_outcome ⟨fun _ => 0, fun _ => 0, fun _ => 1, fun k => (k : ℚ)⟩ 4 4 2
    Env.init).2.2 ⟨rfl, rfl, rfl⟩ (fun _ => GL_TIMEOUT_EXPIRED)


/-! ### The best-speedup tracker -/

theorem gt_trans {a b c : Dbl} (hab : Dbl.gt a b = true) (hbc : Dbl.gt b c = true) :
    Dbl.gt a c = true := by
  cases a <;> cases b <;> cases c <;> simp [Dbl.gt] at hab hbc ⊢
  exact lt_trans hbc hab

theorem gt_irrefl (a : Dbl) : Dbl.gt a a = false := by
  cases a <;> simp [Dbl.gt]

theorem bestLine_of_gt {b : Best} (h : Dbl.gt b.bestSpeedup (Dbl.fin 0) = true) :
    bestLine b = [Line.best b.bestSpeedup b.bestW b.bestH] := by
  rw [bestLine, if_pos h]

/-- The invariant of the tracker after any number of results. -/
theorem trackBest_fold (all : List BenchResult) :
    ((∀ q ∈ all, Dbl.gt (speedup q) (Dbl.fin 0) = false) ∧
      all.foldl trackBest Best.init = Best.init) ∨
    (∃ pre r post, all = pre ++ r :: post ∧
      all.foldl trackBest Best.init = ⟨speedup r, r.w, r.h⟩ ∧
      Dbl.gt (speedup r) (Dbl.fin 0) = true ∧
      (∀ q ∈ all, Dbl.gt (speedup q) (speedup r) = false) ∧
      (∀ p ∈ pre, speedup p ≠ speedup r)) := by
  induction all using List.reverseRecOn with
  | nil => exact Or.inl ⟨by simp, rfl⟩
  | append_singleton l x ih =>
    rw [List.foldl_append, List.foldl_cons, List.foldl_nil]
    rcases ih with ⟨hnone, hb⟩ | ⟨pre, r, post, hl, hb, hpos, hmax, hfirst⟩
    · rw [hb]
      by_cases hx : Dbl.gt (speedup x) (Dbl.fin 0) = true
      · right
        refine ⟨l, x, [], rfl, ?_, hx, ?_, ?_⟩
        · simp [trackBest, Best.init, hx]
        · intro q hq
          rcases List.mem_append.1 hq with hq | hq
          · by_contra hc
            have hc' : Dbl.gt (speedup q) (speedup x) = true := by simpa using hc
            have := gt_trans hc' hx
            rw [hnone q hq] at this
            cases this
          · rw [List.mem_singleton.1 hq]
            exact gt_irrefl _
        · intro p hp heq
          have := hnone p hp
          rw [heq, hx] at this
          cases this
      · left
        have hx' : Dbl.gt (speedup x) (Dbl.fin 0) = false := by simpa using hx
        refine ⟨?_, ?_⟩
        · intro q hq
          rcases List.mem_append.1 hq with hq | hq
          · exact hnone q hq
          · rw [List.mem_singleton.1 hq]
            exact hx'
        · simp [trackBest, Best.init, hx']
    · rw [hb]
      right
      by_cases hx : Dbl.gt (speedup x) (speedup r) = true
      · refine ⟨l, x, [], rfl, ?_, gt_trans hx hpos, ?_, ?_⟩
        · simp [trackBest, hx]
        · intro q hq
          rcases List.mem_append.1 hq with hq | hq
          · by_contra hc
            have hc' : Dbl.gt (speedup q) (speedup x) = true := by simpa using hc
            have := gt_trans hc' hx
            rw [hmax q hq] at this
            cases this
          · rw [List.mem_singleton.1 hq]
            exact gt_irrefl _
        · intro p hp heq
          have := hmax p hp
          rw [heq, hx] at this
          cases this
      · have hx' : Dbl.gt (speedup x) (speedup r) = false := by simpa using hx
        refine ⟨pre, r, post ++ [x], ?_, ?_, hpos, ?_, hfirst⟩
        · rw [hl]; simp
        · simp [trackBest, hx']
        · intro q hq
          rcases List.mem_append.1 hq with hq | hq
          · exact hmax q hq
          · rw [List.mem_singleton.1 hq]
            exact hx'


/-! ### The result loop of `main` -/

/-- When the result loop runs to its end: it has produced one result per
resolution, in order, each the one `run_benchmark` builds from the four clock
readings of its run and `iterations`; each has its table row on standard
output, and the tracker has been folded over them. Here `c + 4 * n` is the
number of clock readings made before the loop starts. -/
theorem main_sweep_ret (wd : World) (iterations : Int) (c : Nat) :
    ∀ (rs : List (Nat × Nat)) (n : Nat) (all : List BenchResult) (best : Best) (s : Env)
      (all' : List BenchResult) (best' : Best) (s' : Env),
      s.clockCalls = c + 4 * n →
      main_sweep wd iterations rs all best s = .ret (all', best') s' →
      ∃ res, all' = all ++ res ∧ best' = res.foldl trackBest best ∧
        res = (rs.enumFrom n).map (fun p =>
          (⟨p.2.1, p.2.2,
            Dbl.fin (wd.clock (c + 4 * p.1 + 1) - wd.clock (c + 4 * p.1)),
            Dbl.div (Dbl.fin (wd.clock (c + 4 * p.1 + 1) - wd.clock (c + 4 * p.1)))
              (Dbl.ofInt iterations),
            Dbl.fin (wd.clock (c + 4 * p.1 + 3) - wd.clock (c + 4 * p.1 + 2)),
            Dbl.div (Dbl.fin (wd.clock (c + 4 * p.1 + 3) - wd.clock (c + 4 * p.1 + 2)))
              (Dbl.ofInt iterations)⟩ : BenchResult)) ∧
        res.map (fun r => (r.w, r.h)) = rs ∧
        s'.stdout = s.stdout ++ res.map tableRow ∧
        s'.benchArgs = s.benchArgs ++ rs.map (fun p => (p.1, p.2, iterations)) := by
  intro rs
  induction rs with
  | nil =>
    intro n all best s all' best' s' _ h
    simp only [main_sweep, Outcome.ret.injEq, Prod.mk.injEq] at h
    obtain ⟨⟨h1, h2⟩, h3⟩ := h
    subst h1 h2 h3
    exact ⟨[], by simp⟩
  | cons p rest ih =>
    intro n all best s all' best' s' hc h
    obtain ⟨w, h'⟩ := p
    rw [main_sweep] at h
    by_cases hne : wd.glGetError s.errCalls = GL_NO_ERROR ∧
        wd.glGetError (s.errCalls + 1) = GL_NO_ERROR ∧
        wd.glGetError (s.errCalls + 2) = GL_NO_ERROR
    · obtain ⟨s1, hs1, _, hout, hargs, _, _, hclock, _⟩ :=
        run_benchmark_ok wd w h' iterations s hne.1 hne.2.1 hne.2.2
      generalize hR : (⟨w, h', Dbl.fin (wd.clock (s.clockCalls + 1) - wd.clock s.clockCalls),
          Dbl.div (Dbl.fin (wd.clock (s.clockCalls + 1) - wd.clock s.clockCalls))
            (Dbl.ofInt iterations),
          Dbl.fin (wd.clock (s.clockCalls + 3) - wd.clock (s.clockCalls + 2)),
          Dbl.div (Dbl.fin (wd.clock (s.clockCalls + 3) - wd.clock (s.clockCalls + 2)))
            (Dbl.ofInt iterations)⟩ : BenchResult) = R at hs1
      rw [hs1] at h
      simp only [] at h
      have hc1 : (print (tableRow R) s1).clockCalls = c + 4 * (n + 1) := by
        simp only [print, hclock, hc]
        ring
      obtain ⟨res, hall, hbest, hres, hmap, hstdout, hbargs⟩ := ih (n + 1) _ _ _ _ _ _ hc1 h
      refine ⟨R :: res, ?_, ?_, ?_, ?_, ?_, ?_⟩
      · rw [hall]; simp
      · rw [hbest]; rfl
      · rw [List.enumFrom_cons, List.map_cons, ← hres, ← hR]
        simp only [hc]
      · rw [List.map_cons, hmap, ← hR]
      · rw [hstdout]
        simp only [print, hout, List.map_cons, List.append_assoc, List.singleton_append]
      · rw [hbargs]
        simp only [print, hargs, List.map_cons, List.append_assoc, List.singleton_append]
    · obtain ⟨s1, hs1, _⟩ := run_benchmark_err wd w h' iterations s hne
      rw [hs1] at h
      cases h

/-- With a GL that never reports an error the result loop runs to its end. -/
theorem main_sweep_returns (wd : World) (iterations : Int)
    (hgl : ∀ k, wd.glGetError k = GL_NO_ERROR) :
    ∀ (rs : List (Nat × Nat)) (all : List BenchResult) (best : Best) (s : Env),
      ∃ all' best' s', main_sweep wd iterations rs all best s = .ret (all', best') s' := by
  intro rs
  induction rs with
  | nil =>
    intro all best s
    exact ⟨all, best, s, rfl⟩
  | cons p rest ih =>
    intro all best s
    obtain ⟨w, h'⟩ := p
    obtain ⟨s1, hs1, _⟩ := run_benchmark_ok wd w h' iterations s (hgl _) (hgl _) (hgl _)
    rw [main_sweep, hs1]
    exact ih _ _ _

/-- The result loop only ends the process with status 1. -/
theorem main_sweep_exit (wd : World) (iterations : Int) :
    ∀ (rs : List (Nat × Nat)) (all : List BenchResult) (best : Best) (s : Env)
      (code : Nat) (s' : Env),
      main_sweep wd iterations rs all best s = .exit code s' → code = 1 := by
  intro rs
  induction rs with
  | nil =>
    intro all best s code s' h
    simp [main_sweep] at h
  | cons p rest ih =>
    intro all best s code s' h
    obtain ⟨w, h'⟩ := p
    rw [main_sweep] at h
    by_cases hne : wd.glGetError s.errCalls = GL_NO_ERROR ∧
        wd.glGetError (s.errCalls + 1) = GL_NO_ERROR ∧
        wd.glGetError (s.errCalls + 2) = GL_NO_ERROR
    · obtain ⟨s1, hs1, _⟩ := run_benchmark_ok wd w h' iterations s hne.1 hne.2.1 hne.2.2
      rw [hs1] at h
      exact ih _ _ _ _ _ h
    · obtain ⟨s1, hs1, _⟩ := run_benchmark_err wd w h' iterations s hne
      rw [hs1] at h
      simp only [Outcome.exit.injEq] at h
      exact h.1.symm

/-- However the result loop ends, every `run_benchmark` call made in it received
the same `iterations`, for the resolutions in order. -/
theorem main_sweep_benchArgs (wd : World) (iterations : Int) :
    ∀ (rs : List (Nat × Nat)) (all : List BenchResult) (best : Best) (s : Env),
      ∃ k, k ≤ rs.length ∧
        (main_sweep wd iterations rs all best s).env.benchArgs
          = s.benchArgs ++ (rs.take k).map (fun p => (p.1, p.2, iterations)) := by
  intro rs
  induction rs with
  | nil =>
    intro all best s
    exact ⟨0, le_refl _, by simp [main_sweep, Outcome.env]⟩
  | cons p rest ih =>
    intro all best s
    obtain ⟨w, h'⟩ := p
    rw [main_sweep]
    by_cases hne : wd.glGetError s.errCalls = GL_NO_ERROR ∧
        wd.glGetError (s.errCalls + 1) = GL_NO_ERROR ∧
        wd.glGetError (s.errCalls + 2) = GL_NO_ERROR
    · obtain ⟨s1, hs1, _, _, hargs, _⟩ :=
        run_benchmark_ok wd w h' iterations s hne.1 hne.2.1 hne.2.2
      rw [hs1]
      simp only []
      obtain ⟨k, hk, hk'⟩ := ih (all ++ [_]) (trackBest best _) (print (tableRow _) s1)
      refine ⟨k + 1, by simpa using hk, ?_⟩
      rw [hk']
      simp only [print, hargs, List.take_succ_cons, List.map_cons, List.append_assoc,
        List.singleton_append]
    · obtain ⟨s1, hs1, _, hargs⟩ := run_benchmark_err wd w h' iterations s hne
      rw [hs1]
      refine ⟨1, by simp, ?_⟩
      simp only [Outcome.env, hargs, List.take_succ_cons, List.take_zero, List.map_cons,
        List.map_nil]


/-- C7: the result loop of `main` returns when the GL reports no error, and
whenever it returns `(all, best)`, `all` holds one result per resolution, in
processing order, each the result `run_benchmark` builds for that resolution
(with its row printed), and `best` is the fold of `trackBest` over `all`
starting from `(0, 0, 0)`. For every sequence of results: when some speedup is
positive, the final `bestSpeedup` is a speedup of the sequence that no speedup
of the sequence exceeds (its maximum), `(bestW, bestH)` is the resolution of the
earliest result that attains it, and the best line is printed with these
values; when no speedup is positive the variables stay `(0, 0, 0)` and no best
line is printed. -/
theorem best_speedup_spec (wd : World) (iterations : Int) (rs : List (Nat × Nat)) (s : Env) :
    ((∀ k, wd.glGetError k = GL_NO_ERROR) →
      ∃ all best s', main_sweep wd iterations rs [] Best.init s = .ret (all, best) s') ∧
    (∀ (all : List BenchResult) (best : Best) (s' : Env),
      main_sweep wd iterations rs [] Best.init s = .ret (all, best) s' →
        all = (rs.enumFrom 0).map (fun p =>
          (⟨p.2.1, p.2.2,
            Dbl.fin (wd.clock (s.clockCalls + 4 * p.1 + 1) - wd.clock (s.clockCalls + 4 * p.1)),
            Dbl.div
              (Dbl.fin (wd.clock (s.clockCalls + 4 * p.1 + 1) - wd.clock (s.clockCalls + 4 * p.1)))
              (Dbl.ofInt iterations),
            Dbl.fin
              (wd.clock (s.clockCalls + 4 * p.1 + 3) - wd.clock (s.clockCalls + 4 * p.1 + 2)),
            Dbl.div
              (Dbl.fin
                (wd.clock (s.clockCalls + 4 * p.1 + 3) - wd.clock (s.clockCalls + 4 * p.1 + 2)))
              (Dbl.ofInt iterations)⟩ : BenchResult)) ∧
        all.map (fun r => (r.w, r.h)) = rs ∧
        s'.stdout = s.stdout ++ all.map tableRow ∧
        best = all.foldl trackBest Best.init) ∧
    (∀ all : List BenchResult,
      ((∃ q ∈ all, Dbl.gt (speedup q) (Dbl.fin 0) = true) →
        ∃ pre r post, all = pre ++ r :: post ∧
          all.foldl trackBest Best.init = ⟨speedup r, r.w, r.h⟩ ∧
          (∀ q ∈ all, Dbl.gt (speedup q) (speedup r) = false) ∧
          (∀ p ∈ pre, speedup p ≠ speedup r) ∧
          bestLine (all.foldl trackBest Best.init) = [Line.best (speedup r) r.w r.h]) ∧
      ((∀ q ∈ all, Dbl.gt (speedup q) (Dbl.fin 0) = false) →
        all.foldl trackBest Best.init = Best.init ∧
        bestLine (all.foldl trackBest Best.init) = [])) := by
  refine ⟨?_, ?_, ?_⟩
  · intro hgl
    exact main_sweep_returns wd iterations hgl rs [] Best.init s
  · intro all best s' h
    obtain ⟨res, hall, hbest, hres, hmap, hout, _⟩ :=
      main_sweep_ret wd iterations s.clockCalls rs 0 [] Best.init s all best s' rfl h
    rw [List.nil_append] at hall
    subst hall
    exact ⟨hres, hmap, hout, hbest⟩
  · intro all
    constructor
    · rintro ⟨q, hq, hqpos⟩
      rcases trackBest_fold all with ⟨hnone, _⟩ | ⟨pre, r, post, hl, hb, hpos, hmax, hfirst⟩
      · rw [hnone q hq] at hqpos
        cases hqpos
      · refine ⟨pre, r, post, hl, hb, hmax, hfirst, ?_⟩
        rw [hb]
        exact bestLine_of_gt hpos
    · intro hnone
      rcases trackBest_fold all with ⟨_, hb⟩ | ⟨pre, r, post, hl, _, hpos, _, _⟩
      · refine ⟨hb, ?_⟩
        rw [hb]
        simp [bestLine, Best.init, Dbl.gt]
      · have hr : r ∈ all := by rw [hl]; simp
        rw [hnone r hr] at hpos
        cases hpos

/-- Witness of C7: three resolutions, one iteration each, a GL without errors
and a clock whose readings give the speedups 2, 3 and 3. The loop returns with
the tracker at speedup 3 and 256x256, the first of the two resolutions that
reach 3, and the best line reports them. -/
theorem best_speedup_spec_witness :
    ∃ all s',
      main_sweep
        ⟨fun _ => 0, fun _ => 0, fun _ => 1,
          fun k => ([0, 2, 2, 3, 3, 6, 6, 7, 7, 10, 10, 11] : List ℚ).getD k 0⟩
        1 [(128, 128), (256, 256), (512, 512)] [] Best.init Env.init
        = .ret (all, ⟨Dbl.fin 3, 256, 256⟩) s' ∧
      all.map speedup = [Dbl.fin 2, Dbl.fin 3, Dbl.fin 3] ∧
      bestLine ⟨Dbl.fin 3, 256, 256⟩ = [Line.best (Dbl.fin 3) 256 256] := by
  obtain ⟨all, best, s', h⟩ :=
    (best_speedup_spec
      ⟨fun _ => 0, fun _ => 0, fun _ => 1,
        fun k => ([0, 2, 2, 3, 3, 6, 6, 7, 7, 10, 10, 11] : List ℚ).getD k 0⟩
      1 [(128, 128), (256, 256), (512, 512)] Env.init).1 (fun _ => rfl)
  obtain ⟨hall, _, _, hbest⟩ :=
    (best_speedup_spec
      ⟨fun _ => 0, fun _ => 0, fun _ => 1,
        fun k => ([0, 2, 2, 3, 3, 6, 6, 7, 7, 10, 10, 11] : List ℚ).getD k 0⟩
      1 [(128, 128), (256, 256), (512, 512)] Env.init).2.1 all best s' h
  have hall' : all =
      [⟨128, 128, Dbl.fin 2, Dbl.fin 2, Dbl.fin 1, Dbl.fin 1⟩,
        ⟨256, 256, Dbl.fin 3, Dbl.fin 3, Dbl.fin 1, Dbl.fin 1⟩,
        ⟨512, 512, Dbl.fin 3, Dbl.fin 3, Dbl.fin 1, Dbl.fin 1⟩] := by
    rw [hall]
    norm_num [List.enumFrom, Env.init, Dbl.ofInt, Dbl.div]
  have hb : best = ⟨Dbl.fin 3, 256, 256⟩ := by
    rw [hbest, hall']
    norm_num [trackBest, Best.init, speedup, Dbl.gt, Dbl.div]
  subst hb
  refine ⟨all, s', h, ?_, ?_⟩
  · rw [hall']
    norm_num [speedup, Dbl.gt, Dbl.div]
  · norm_num [bestLine, Dbl.gt]

/-! ### Division guards of the report -/

/-- C6, the code at the failing input: for a result with `full_avg_ms = 1` and
`sub_avg_ms = 0` the guard of `speedup` tests `full_avg_ms`, not the divisor, and
the reported speedup is the quotient `1 / 0` (positive infinity), not 0; such a
result is what `run_benchmark` returns when the clock does not advance during
the dirty sub-update phase. The overall speedup divides by `sub_total = 0` in
the same way. `dirtyPercent` and the throughput, whose divisor is the guarded
`full_avg_ms`, are 0 when that divisor is 0. -/
theorem speedup_divides_by_zero :
    speedup ⟨128, 128, Dbl.fin 1, Dbl.fin 1, Dbl.fin 0, Dbl.fin 0⟩ = Dbl.pinf ∧
    tableRow ⟨128, 128, Dbl.fin 1, Dbl.fin 1, Dbl.fin 0, Dbl.fin 0⟩
      = Line.row 128 128 (Dbl.fin 1) (Dbl.fin 0) (Dbl.fin 0) Dbl.pinf (Dbl.fin (2048 / 125)) ∧
    (∃ r s', run_benchmark ⟨fun _ => 0, fun _ => 0, fun _ => 1, fun k => if k = 0 then 0 else 1⟩
        128 128 1 Env.init = .ret r s' ∧ r.sub_avg_ms = Dbl.fin 0 ∧ speedup r = Dbl.pinf) ∧
    overallLine (totals [⟨128, 128, Dbl.fin 1, Dbl.fin 1, Dbl.fin 0, Dbl.fin 0⟩])
      = [Line.overall (Dbl.fin 0) Dbl.pinf] ∧
    bestLine (trackBest Best.init ⟨128, 128, Dbl.fin 1, Dbl.fin 1, Dbl.fin 0, Dbl.fin 0⟩)
      = [Line.best Dbl.pinf 128 128] ∧
    (∀ r : BenchResult, r.full_avg_ms = Dbl.fin 0 →
      dirtyPercent r = Dbl.fin 0 ∧ megaPixelsPerSec r = Dbl.fin 0 ∧ speedup r = Dbl.fin 0) := by
  refine ⟨?_, ?_, ?_, ?_, ?_, ?_⟩
  · norm_num [speedup, Dbl.gt, Dbl.div]
  · norm_num [tableRow, speedup, dirtyPercent, megaPixelsPerSec, pixelsPerSec, Dbl.gt, Dbl.div,
      Dbl.mul, Dbl.ofNat]
  · obtain ⟨s', hs', _⟩ := run_benchmark_ok
      ⟨fun _ => 0, fun _ => 0, fun _ => 1, fun k => if k = 0 then 0 else 1⟩ 128 128 1 Env.init
      rfl rfl rfl
    refine ⟨_, s', hs', ?_, ?_⟩
    · norm_num [Env.init, Dbl.ofInt, Dbl.div]
    · norm_num [Env.init, Dbl.ofInt, speedup, Dbl.gt, Dbl.div]
  · norm_num [overallLine, totals, Dbl.add, Dbl.gt, Dbl.div, Dbl.mul]
  · norm_num [bestLine, trackBest, Best.init, speedup, Dbl.gt, Dbl.div]
  · intro r hr
    simp [dirtyPercent, megaPixelsPerSec, pixelsPerSec, speedup, hr, Dbl.gt, Dbl.div]


/-! ### The argument loop of `main` -/

theorem toInt32_range (u : Nat) : -(2 ^ 31 : Int) ≤ toInt32 u ∧ toInt32 u < (2 ^ 31 : Int) := by
  have hlt : u % U32 < U32 := Nat.mod_lt _ (by decide)
  unfold toInt32
  unfold U32 at *
  split <;> constructor <;> push_cast <;> omega

/-- Below `2 ^ 31`, `atoi` of a string of digits is its decimal value. -/
theorem atoi_of_lt {a : List Char} (h : decimalValue a < 2 ^ 31) :
    atoi a = ((decimalValue a : Nat) : Int) := by
  have hmin : min (decimalValue a) (2 ^ 63 - 1) = decimalValue a := by
    apply Nat.min_eq_left
    omega
  rw [atoi, hmin, toInt32_of_lt h]

/-- From index 2 on, the argument loop never assigns `iterations`. -/
theorem main_args_keep (sscanf : List Char → Int × Nat × Nat) :
    ∀ (args : List (List Char)) (i : Nat) (iterations : Int) (res : List (Nat × Nat))
      (it : Int) (res' : List (Nat × Nat)), 2 ≤ i →
      main_args sscanf i args iterations res = .ok it res' → it = iterations := by
  intro args
  induction args with
  | nil =>
    intro i iterations res it res' _ h
    simp only [main_args, Parsed.ok.injEq] at h
    exact h.1.symm
  | cons a rest ih =>
    intro i iterations res it res' hi h
    rw [main_args, if_neg (fun hc => by omega)] at h
    cases hp : parse_resolution sscanf a with
    | none =>
      rw [hp] at h
      cases h
    | some p =>
      obtain ⟨w, h'⟩ := p
      rw [hp] at h
      exact ih (i + 1) iterations _ it res' (by omega) h

/-- The iteration count with which the argument loop ends. -/
theorem main_args_iterations (sscanf : List Char → Int × Nat × Nat) (args : List (List Char))
    (it : Int) (res : List (Nat × Nat)) (h : main_args sscanf 1 args 100 [] = .ok it res) :
    (args = [] ∧ it = 100) ∨
    (∃ a rest, args = a :: rest ∧ allDigits a = false ∧ it = 100) ∨
    (∃ a rest, args = a :: rest ∧ allDigits a = true ∧ it = atoi a) := by
  cases args with
  | nil =>
    simp only [main_args, Parsed.ok.injEq] at h
    exact Or.inl ⟨rfl, h.1.symm⟩
  | cons a rest =>
    right
    rw [main_args] at h
    by_cases hd : allDigits a = true
    · right
      rw [if_pos ⟨rfl, hd⟩] at h
      exact ⟨a, rest, rfl, hd, main_args_keep sscanf rest 2 _ _ it res (le_refl _) h⟩
    · left
      rw [if_neg (fun hc => hd hc.2)] at h
      have hd' : allDigits a = false := by simpa using hd
      cases hp : parse_resolution sscanf a with
      | none =>
        rw [hp] at h
        cases h
      | some p =>
        obtain ⟨w, h'⟩ := p
        rw [hp] at h
        exact ⟨a, rest, rfl, hd', main_args_keep sscanf rest 2 _ _ it res (le_refl _) h⟩

/-- C9 as stated fails: the command line with the single argument `0` is
accepted and leaves the iteration count 0, which is not positive (and the
single argument `2147483648` is accepted with a negative count). -/
theorem iterations_zero_accepted :
    main_args (fun _ => (0, 0, 0)) 1 [['0']] 100 [] = Parsed.ok 0 [] ∧
    main_args (fun _ => (0, 0, 0)) 1 [['2', '1', '4', '7', '4', '8', '3', '6', '4', '8']] 100 []
      = Parsed.ok (-2147483648) [] ∧
    ¬ (∀ (sscanf : List Char → Int × Nat × Nat) (args : List (List Char)) (it : Int)
        (res : List (Nat × Nat)), main_args sscanf 1 args 100 [] = .ok it res → 0 < it) := by
  have h0 : main_args (fun _ => (0, 0, 0)) 1 [['0']] 100 [] = Parsed.ok 0 [] := by decide
  refine ⟨h0, by decide, ?_⟩
  intro hall
  exact absurd (hall _ _ _ _ h0) (by decide)

/-- C9, amended: for every command line the argument loop accepts, the
iteration count is an `int` that need not be positive: it is 100 by default (no
argument, or a first argument that is not all digits) and otherwise the value
`atoi` returns for the all-digit first argument, which is its decimal value
when that is below `2 ^ 31`; it is positive exactly when it is the default or
that `atoi` value is positive. `main` then ends with an exit status, and every
`run_benchmark` call made, for the resolutions in order, received this same
count. -/
theorem main_iterations (sscanf : List Char → Int × Nat × Nat) (args : List (List Char))
    (it : Int) (res : List (Nat × Nat)) (h : main_args sscanf 1 args 100 [] = .ok it res) :
    ((args = [] ∧ it = 100) ∨
      (∃ a rest, args = a :: rest ∧ allDigits a = false ∧ it = 100) ∨
      (∃ a rest, args = a :: rest ∧ allDigits a = true ∧ it = atoi a)) ∧
    (∀ a rest, args = a :: rest → allDigits a = true → decimalValue a < 2 ^ 31 →
      it = ((decimalValue a : Nat) : Int)) ∧
    (-(2 ^ 31 : Int) ≤ it ∧ it < (2 ^ 31 : Int)) ∧
    (0 < it ↔ ¬ ∃ a rest, args = a :: rest ∧ allDigits a = true ∧ atoi a ≤ 0) ∧
    (∀ (wd : World) (s : Env), ∃ code s' k,
      main sscanf wd args s = (code, s') ∧
      k ≤ (if res.isEmpty then res ++ defaults else res).length ∧
      (code = 0 → k = (if res.isEmpty then res ++ defaults else res).length) ∧
      s'.benchArgs = s.benchArgs ++
        ((if res.isEmpty then res ++ defaults else res).take k).map
          (fun p => (p.1, p.2, it)) ∧
      (code = 0 → ∃ all : List BenchResult,
        all.map (fun r => (r.w, r.h)) = (if res.isEmpty then res ++ defaults else res) ∧
        (∀ r ∈ all, r.full_avg_ms = Dbl.div r.full_total_ms (Dbl.ofInt it) ∧
          r.sub_avg_ms = Dbl.div r.sub_total_ms (Dbl.ofInt it)) ∧
        s'.stdout = s.stdout ++
          [Line.iterations it,
            Line.resolutionCount (if res.isEmpty then res ++ defaults else res).length,
            Line.header] ++ all.map tableRow ++ report all (all.foldl trackBest Best.init))) := by
  have hcases := main_args_iterations sscanf args it res h
  refine ⟨hcases, ?_, ?_, ?_, ?_⟩
  · intro a rest hargs hd hv
    rcases hcases with ⟨hnil, _⟩ | ⟨a', rest', hargs', hd', _⟩ | ⟨a', rest', hargs', _, hit⟩
    · rw [hnil] at hargs
      cases hargs
    · rw [hargs] at hargs'
      injection hargs' with ha _
      rw [ha, hd'] at hd
      cases hd
    · rw [hargs] at hargs'
      injection hargs' with ha _
      rw [hit, ← ha]
      exact atoi_of_lt hv
  · rcases hcases with ⟨_, hit⟩ | ⟨a, rest, _, _, hit⟩ | ⟨a, rest, _, _, hit⟩
    · rw [hit]; decide
    · rw [hit]; decide
    · rw [hit]; exact toInt32_range _
  · rcases hcases with ⟨hargs, hit⟩ | ⟨a, rest, hargs, hd, hit⟩ | ⟨a, rest, hargs, hd, hit⟩
    · subst hargs
      rw [hit]
      simp
    · subst hargs
      rw [hit]
      simp [hd]
    · subst hargs
      rw [hit]
      simp only [List.cons.injEq, not_exists, not_and, not_le]
      constructor
      · intro hpos a' rest' heq _
        rw [← heq.1]
        exact hpos
      · intro hno
        exact hno a rest ⟨rfl, rfl⟩ hd
  · intro wd s
    unfold main
    rw [h]
    simp only []
    obtain ⟨k, hk, hk'⟩ := main_sweep_benchArgs wd it
      (if res.isEmpty then res ++ defaults else res) [] Best.init
      (print Line.header (print (Line.resolutionCount
        (if res.isEmpty then res ++ defaults else res).length) (print (Line.iterations it) s)))
    cases hm : main_sweep wd it (if res.isEmpty then res ++ defaults else res) [] Best.init
      (print Line.header (print (Line.resolutionCount
        (if res.isEmpty then res ++ defaults else res).length) (print (Line.iterations it) s))) with
    | exit code s1 =>
      rw [hm] at hk'
      have h1 := main_sweep_exit wd it _ _ _ _ _ _ hm
      refine ⟨code, s1, k, rfl, hk, ?_, hk', ?_⟩
      · intro hc
        omega
      · intro hc
        omega
    | ret p s1 =>
      obtain ⟨all, best⟩ := p
      obtain ⟨rl, hall, hbest, hres, hmap, hout, hargs⟩ :=
        main_sweep_ret wd it _ _ 0 _ _ _ _ _ _ rfl hm
      rw [List.nil_append] at hall
      subst hall
      refine ⟨0, _, (if res.isEmpty then res ++ defaults else res).length, rfl, le_refl _,
        fun _ => rfl, ?_, fun _ => ⟨all, hmap, ?_, ?_⟩⟩
      · rw [List.take_length]
        exact hargs
      · intro r hr
        rw [hres] at hr
        obtain ⟨p, _, hp⟩ := List.mem_map.1 hr
        rw [← hp]
        exact ⟨rfl, rfl⟩
      · simp only [hout, hbest, print, List.append_assoc, List.singleton_append,
          List.cons_append, List.nil_append]

/-- Witness of C9 (amended): the command line `5 128x128`, with a `sscanf` that
reads two fields 128 and 128. -/
theorem main_iterations_witness :
    main_args (fun _ => (2, 128, 128)) 1 [['5'], ['1', '2', '8', 'x', '1', '2', '8']] 100 []
      = Parsed.ok 5 [(128, 128)] ∧
    ((0 : Int) < 5 ↔ ¬ ∃ a rest, [['5'], ['1', '2', '8', 'x', '1', '2', '8']] = a :: rest ∧
      allDigits a = true ∧ atoi a ≤ 0) ∧
    ∀ (wd : World) (s : Env), ∃ code s' k,
      main (fun _ => (2, 128, 128)) wd [['5'], ['1', '2', '8', 'x', '1', '2', '8']] s
        = (code, s') ∧
      k ≤ (if [((128 : Nat), (128 : Nat))].isEmpty then [(128, 128)] ++ defaults
            else [(128, 128)]).length ∧
      (code = 0 → k = (if [((128 : Nat), (128 : Nat))].isEmpty then [(128, 128)] ++ defaults
            else [(128, 128)]).length) ∧
      s'.benchArgs = s.benchArgs ++
        ((if [((128 : Nat), (128 : Nat))].isEmpty then [(128, 128)] ++ defaults
            else [(128, 128)]).take k).map (fun p => (p.1, p.2, (5 : Int))) ∧
      (code = 0 → ∃ all : List BenchResult,
        all.map (fun r => (r.w, r.h))
          = (if [((128 : Nat), (128 : Nat))].isEmpty then [(128, 128)] ++ defaults
              else [(128, 128)]) ∧
        (∀ r ∈ all, r.full_avg_ms = Dbl.div r.full_total_ms (Dbl.ofInt 5) ∧
          r.sub_avg_ms = Dbl.div r.sub_total_ms (Dbl.ofInt 5)) ∧
        s'.stdout = s.stdout ++
          [Line.iterations 5,
            Line.resolutionCount
              (if [((128 : Nat), (128 : Nat))].isEmpty then [(128, 128)] ++ defaults
                else [(128, 128)]).length,
            Line.header] ++ all.map tableRow ++ report all (all.foldl trackBest Best.init)) :=
  ⟨by decide,
    (main_iterations (fun _ => (2, 128, 128)) [['5'], ['1', '2', '8', 'x', '1', '2', '8']] 5
      [(128, 128)] (by decide)).2.2.2.1,
    (main_iterations (fun _ => (2, 128, 128)) [['5'], ['1', '2', '8', 'x', '1', '2', '8']] 5
      [(128, 128)] (by decide)).2.2.2.2⟩


end GlBench
